import Mathlib

/-
Verification of the crud-generator repository: a shallow embedding of the
configuration-driven SQL generation subsystem (PostgreSQL CREATE TABLE parser,
query/filter/sort/pagination compiler, mutation generator, validator and the
service-level create/update pipeline), together with theorems settling the
frozen claims about it.

Go strings are modelled as Lean `String`; all character-level work is done on
`String.data` so every definition evaluates inside the kernel.  Go maps
(`map[string]interface{}`) are modelled as association lists iterated in list
order (Go map iteration order is unspecified; the embedding fixes one order).
Go `interface{}` values are modelled by the inductive `Value` below.
-/

deriving instance DecidableEq for Except

namespace CrudGen

/-! ## String utilities (Go standard library operations, character-list based) -/

/-- Whitespace test matching the regexp class backslash-s (space, tab, newline,
carriage return, form feed, vertical tab). -/
def wsp (c : Char) : Bool :=
  c == ' ' || c == '\t' || c == '\n' || c == '\r' || c == '\x0c' || c == '\x0b'

/-- Models strings.ToUpper (ASCII case mapping suffices for the SQL keywords involved). -/
def upperStr (s : String) : String := String.mk (s.data.map Char.toUpper)

/-- Models strings.ToLower. -/
def lowerStr (s : String) : String := String.mk (s.data.map Char.toLower)

/-- Models strings.TrimSpace. -/
def trimStr (s : String) : String :=
  String.mk (((s.data.dropWhile (fun c => wsp c)).reverse.dropWhile (fun c => wsp c)).reverse)

/-- Models strings.Join. -/
def joinSep (sep : String) : List String → String
  | [] => ""
  | [x] => x
  | x :: xs => x ++ sep ++ joinSep sep xs

/-- Models strings.HasPrefix on the underlying characters. -/
def hasPrefixStr (s pre : String) : Bool := pre.data.isPrefixOf s.data

/-- Helper for substring search starting at every suffix. -/
def containsSubAux (pat : List Char) : List Char → Bool
  | [] => pat.isPrefixOf []
  | c :: rest => pat.isPrefixOf (c :: rest) || containsSubAux pat rest

/-- Models strings.Contains. -/
def containsSub (s pat : String) : Bool := containsSubAux pat.data s.data

/-- Models strconv.Atoi: optional sign followed by one or more decimal digits. -/
def atoiDigits : List Char → Option Nat
  | [] => none
  | cs =>
    if cs.all Char.isDigit then
      some (cs.foldl (fun acc c => acc * 10 + (c.toNat - 48)) 0)
    else none

/-- Models strconv.Atoi. -/
def atoi (s : String) : Option Int :=
  match s.data with
  | '+' :: rest => (atoiDigits rest).map (fun n => (n : Int))
  | '-' :: rest => (atoiDigits rest).map (fun n => -(n : Int))
  | cs => (atoiDigits cs).map (fun n => (n : Int))

/-! ## Dynamic values (Go interface values) -/

/-- Model of a Go `interface{}` value as it occurs in request payloads:
nil, a string, an integer, an array, or a string-keyed object. -/
inductive Value where
  | vnull : Value
  | vstr : String → Value
  | vint : Int → Value
  | varr : List Value → Value
  | vmap : List (String × Value) → Value

/-- Models the Go comparison `value == nil` on an interface value. -/
def Value.isNull : Value → Bool
  | .vnull => true
  | _ => false

/-- Models the Go comparison `value == ""` on an interface value (true exactly
when the dynamic value is the empty string). -/
def Value.isEmptyStr : Value → Bool
  | .vstr s => s == ""
  | _ => false

/-- Models scalar SQL equality as used by `WHERE id = ?` (row identifiers are
scalar values; composite values never compare equal). -/
def valueEq : Value → Value → Bool
  | .vnull, .vnull => true
  | .vstr a, .vstr b => a == b
  | .vint a, .vint b => a == b
  | _, _ => false

mutual

/-- Models fmt.Sprintf with the %v verb: strings render as themselves, integers
in decimal, nil as an angle-bracketed token, arrays and maps in the bracketed
forms the Go fmt package produces. -/
def display : Value → String
  | .vnull => "<nil>"
  | .vstr s => s
  | .vint n => toString n
  | .varr xs => "[" ++ displayList xs ++ "]"
  | .vmap ps => "map[" ++ displayPairs ps ++ "]"

/-- Space-separated rendering of the elements of an array value. -/
def displayList : List Value → String
  | [] => ""
  | [v] => display v
  | v :: vs => display v ++ " " ++ displayList vs

/-- Space-separated key:value rendering of the entries of a map value. -/
def displayPairs : List (String × Value) → String
  | [] => ""
  | [(k, v)] => k ++ ":" ++ display v
  | (k, v) :: ps => k ++ ":" ++ display v ++ " " ++ displayPairs ps

end

/-- Rows and data payloads: Go `map[string]interface{}` as an association list. -/
abbrev Row := List (String × Value)

/-- Models a Go map read `d[k]` (the first binding wins; Go maps have unique keys). -/
def lookupA (d : Row) (k : String) : Option Value :=
  (d.find? (fun kv => kv.1 == k)).map (fun kv => kv.2)

/-- Models a Go map write `d[k] = v`. -/
def setA (d : Row) (k : String) (v : Value) : Row :=
  (k, v) :: d.filter (fun kv => kv.1 != k)

/-- Models the Go idiom `if x, exists := m[k]; exists && x != nil` used for the
range bounds: the value under `k` when present and non-nil. -/
def getNN (m : Row) (k : String) : Option Value :=
  match lookupA m k with
  | some v => if v.isNull then none else some v
  | none => none

/-! ## Configuration model (types package) -/

/-- Search types from types.SearchType. -/
inductive SearchType where
  | fuzzy | exact | multi | single | range | multiSelect | dateRange

/-- String form of a search type, as in the types package constants. -/
def searchTypeStr : SearchType → String
  | .fuzzy => "fuzzy"
  | .exact => "exact"
  | .multi => "multi"
  | .single => "single"
  | .range => "range"
  | .multiSelect => "multi_select"
  | .dateRange => "date_range"

/-- types.SearchField (the dictionary source is irrelevant to the claims). -/
structure SearchField where
  field : String
  type : SearchType

/-- types.SortField; the order is carried as a string exactly as in the Go code. -/
structure SortFieldC where
  field : String
  order : String

/-- types.QueryConfig. -/
structure QueryConfig where
  pagination : Bool
  searchFields : List SearchField
  sortableFields : List String

/-- types.Config restricted to what the query generator reads. -/
structure Config where
  queryConfig : Option QueryConfig

/-- types.QueryParams. -/
structure QueryParams where
  page : Int
  pageSize : Int
  search : List (String × Value)
  sort : List SortFieldC

/-! ## QueryGenerator (generator package, raw-SQL placeholder backend) -/

/-- Placeholder strings produced by the loop in the multi branch of
buildFieldCondition: one `$n` placeholder per element, numbered from `i`. -/
def placeholdersFrom (i n : Nat) : List String :=
  (List.range n).map (fun k => "$" ++ toString (i + k))

/-- QueryGenerator.buildFieldCondition: one predicate for one configured search
field, returning the condition text, its bound arguments and the next
placeholder index.  multi_select and date_range hit the default branch of the
Go switch and so are errors in this generator. -/
def buildFieldCondition (fieldName : String) (value : Value) (stype : SearchType)
    (argIndex : Nat) : Except String (String × List Value × Nat) :=
  match stype with
  | .fuzzy =>
    let strValue := display value
    if strValue == "" then .ok ("", [], argIndex)
    else
      .ok (fieldName ++ " ILIKE $" ++ toString argIndex,
           [Value.vstr ("%" ++ strValue ++ "%")], argIndex + 1)
  | .exact =>
    .ok (fieldName ++ " = $" ++ toString argIndex, [value], argIndex + 1)
  | .multi =>
    match value with
    | .varr xs =>
      if xs.length > 0 then
        .ok (fieldName ++ " IN (" ++ joinSep ", " (placeholdersFrom argIndex xs.length) ++ ")",
             xs, argIndex + xs.length)
      else .ok ("", [], argIndex)
    | _ => .ok ("", [], argIndex)
  | .single =>
    .ok (fieldName ++ " = $" ++ toString argIndex, [value], argIndex + 1)
  | .range =>
    match value with
    | .vmap m =>
      let step1 : List String × List Value × Nat :=
        match getNN m "min" with
        | some a => ([fieldName ++ " >= $" ++ toString argIndex], [a], argIndex + 1)
        | none => ([], [], argIndex)
      let step2 : List String × List Value × Nat :=
        match getNN m "max" with
        | some b =>
          (step1.1 ++ [fieldName ++ " <= $" ++ toString step1.2.2],
           step1.2.1 ++ [b], step1.2.2 + 1)
        | none => step1
      if step2.1.isEmpty then .ok ("", [], argIndex)
      else .ok (joinSep " AND " step2.1, step2.2.1, step2.2.2)
    | _ => .ok ("", [], argIndex)
  | .multiSelect => .error ("unsupported search type: " ++ searchTypeStr .multiSelect)
  | .dateRange => .error ("unsupported search type: " ++ searchTypeStr .dateRange)

/-- Resolution of a search key against the configured search fields; the Go
code builds a map in configuration order, so a later entry with the same field
name overwrites an earlier one. -/
def searchFieldFor (sfs : List SearchField) (name : String) : Option SearchField :=
  sfs.reverse.find? (fun f => f.field == name)

/-- Appending one built predicate and its arguments to the outcome of the rest
of the loop (the append step of the Go loop over the search map). -/
def appendCond (cond : String) (fargs : List Value)
    (rest : Except String (List String × List Value × Nat)) :
    Except String (List String × List Value × Nat) :=
  match rest with
  | .error e => .error e
  | .ok (conds, args, fin) => .ok (cond :: conds, fargs ++ args, fin)

/-- QueryGenerator.buildSearchConditions: walks the search payload, skipping
nil values and unconfigured keys, collecting predicates and bound arguments and
threading the placeholder index.  An empty condition is not appended and leaves
the index unchanged, exactly as in the Go loop. -/
def buildSearchConditions (sfs : List SearchField) :
    List (String × Value) → Nat → Except String (List String × List Value × Nat)
  | [], i => .ok ([], [], i)
  | (k, v) :: rest, i =>
    if v.isNull then buildSearchConditions sfs rest i
    else
      match searchFieldFor sfs k with
      | none => buildSearchConditions sfs rest i
      | some sf =>
        match buildFieldCondition k v sf.type i with
        | .error e => .error ("failed to build condition for field " ++ k ++ ": " ++ e)
        | .ok (cond, fargs, j) =>
          if cond == "" then buildSearchConditions sfs rest i
          else appendCond cond fargs (buildSearchConditions sfs rest j)

/-- One requested sort entry is valid when its field is in the sortable
whitelist and its order, after defaulting the empty string to ASC, is exactly
ASC or DESC. -/
def normOrder (o : String) : String := if o == "" then "ASC" else o

/-- QueryGenerator.buildOrderClause, inner loop: validates every entry and
renders `field order` parts, failing at the first invalid entry. -/
def buildOrderParts (sortableFields : List String) : List SortFieldC → Except String (List String)
  | [] => .ok []
  | s :: rest =>
    if !(sortableFields.contains s.field) then
      .error ("field " ++ s.field ++ " is not sortable")
    else
      let order := normOrder s.order
      if order != "ASC" && order != "DESC" then .error ("invalid sort order: " ++ order)
      else
        match buildOrderParts sortableFields rest with
        | .error e => .error e
        | .ok parts => .ok ((s.field ++ " " ++ order) :: parts)

/-- QueryGenerator.buildOrderClause. -/
def buildOrderClause (sortableFields : List String) (sorts : List SortFieldC) :
    Except String String :=
  if sorts.isEmpty then .ok ""
  else
    match buildOrderParts sortableFields sorts with
    | .error e => .error e
    | .ok parts => .ok (" ORDER BY " ++ joinSep ", " parts)

/-- Table schema as read by the generators: name plus ordered fields. -/
structure TableFieldG where
  name : String
  primaryKey : Bool

/-- Schema handed to the query and mutation generators (only the field names
and primary-key flags are read by them). -/
structure TableSchemaG where
  tableName : String
  fields : List TableFieldG

def whereClauseFor (conds : List String) : String :=
  if conds.isEmpty then "" else " WHERE " ++ joinSep " AND " conds

/-- The LIMIT/OFFSET clause of GenerateQuery: page and pageSize are
interpolated exactly as received, with no clamping of any kind. -/
def limitClauseFor (qc : QueryConfig) (page pageSize : Int) : String :=
  if qc.pagination then
    " LIMIT " ++ toString pageSize ++ " OFFSET " ++ toString ((page - 1) * pageSize)
  else ""

/-- QueryGenerator.GenerateQuery: assembles the SELECT and COUNT statements.
The invocation of buildOrderClause is commented out in the source, so the
order clause is always the empty string; the LIMIT/OFFSET clause interpolates
page and pageSize exactly as received. -/
def GenerateQuery (schema : TableSchemaG) (cfg : Config) (params : QueryParams) :
    Except String (String × String × List Value) :=
  let baseQuery := "SELECT * FROM " ++ schema.tableName
  let countQuery := "SELECT COUNT(*) FROM " ++ schema.tableName
  let condRes : Except String (List String × List Value) :=
    match cfg.queryConfig with
    | some qc =>
      if params.search.isEmpty then .ok ([], [])
      else
        match buildSearchConditions qc.searchFields params.search 1 with
        | .error e => .error ("failed to build search conditions: " ++ e)
        | .ok (cs, args, _) => .ok (cs, args)
    | none => .ok ([], [])
  match condRes with
  | .error e => .error e
  | .ok (conds, args) =>
    let whereClause := whereClauseFor conds
    let orderClause := ""
    let limitClause :=
      match cfg.queryConfig with
      | some qc => limitClauseFor qc params.page params.pageSize
      | none => ""
    .ok (baseQuery ++ whereClause ++ orderClause ++ limitClause, countQuery ++ whereClause, args)

/-- Parameter defaulting performed by the HTTP list handler (handleCRUDList):
page at most zero becomes 1, pageSize at most zero becomes the default 20.
There is no upper bound on pageSize in this path. -/
def defaultListParams (page pageSize : Int) : Int × Int :=
  ((if page ≤ 0 then 1 else page), (if pageSize ≤ 0 then 20 else pageSize))

/-! ## CRUDService.List (services package, GORM backend)

The loop over the configured search fields translates each matching search
value into GORM Where calls; each call is modelled as a pair of condition text
and bound arguments.  The JSON fallbacks for string-typed values delegate to
the encoding/json library, passed in as the parameters `jsonArr` (a JSON array
of strings) and `jsonMap` (a JSON object). -/

/-- Clauses contributed by one configured search field in CRUDService.List.
A JSON parse failure for a string-typed range value makes the loop skip the
field (continue), i.e. it contributes no clause. -/
def listFieldClauses (jsonArr : String → Option (List String))
    (jsonMap : String → Option Row) (sf : SearchField) (v : Value) :
    List (String × List Value) :=
  match sf.type with
  | .fuzzy => [(sf.field ++ " ILIKE ?", [Value.vstr ("%" ++ display v ++ "%")])]
  | .exact => [(sf.field ++ " = ?", [v])]
  | .range =>
    let rm : Option Row :=
      match v with
      | .vmap m => some m
      | .vstr s => if s != "" then jsonMap s else none
      | _ => none
    match rm with
    | none => []
    | some m =>
      (match getNN m "min" with
       | some a => [(sf.field ++ " >= ?", [a])]
       | none => []) ++
      (match getNN m "max" with
       | some b => [(sf.field ++ " <= ?", [b])]
       | none => [])
  | .single => [(sf.field ++ " = ?", [v])]
  | .multi => [(sf.field ++ " = ?", [v])]
  | .multiSelect =>
    let values : List Value :=
      match v with
      | .varr xs => if xs.length > 0 then xs else []
      | .vstr s =>
        if s != "" then
          match jsonArr s with
          | some l => l.map Value.vstr
          | none => []
        else []
      | _ => []
    if values.length > 0 then [(sf.field ++ " IN ?", values)] else []
  | .dateRange =>
    let rm : Option Row :=
      match v with
      | .vmap m => some m
      | .vstr s => if s != "" then jsonMap s else none
      | _ => none
    match rm with
    | none => []
    | some m =>
      (match getNN m "start" with
       | some a => [(sf.field ++ " >= ?", [a])]
       | none => []) ++
      (match getNN m "end" with
       | some b => [(sf.field ++ " <= ?", [b])]
       | none => [])

/-- CRUDService.List, search-condition stage: iterates the configured search
fields in configuration order and keeps those present and non-nil in the
request search map. -/
def listSearchClauses (jsonArr : String → Option (List String))
    (jsonMap : String → Option Row) (sfs : List SearchField)
    (search : List (String × Value)) : List (String × List Value) :=
  sfs.flatMap (fun sf =>
    match lookupA search sf.field with
    | none => []
    | some v => if v.isNull then [] else listFieldClauses jsonArr jsonMap sf v)

/-- CRUDService.List, sort stage: a requested sort field outside a non-empty
sortable whitelist is silently skipped; any order other than DESC is rendered
as ASC.  No error is ever produced. -/
def listSortClauses (sortableFields : List String) (sorts : List SortFieldC) : List String :=
  sorts.filterMap (fun s =>
    if sortableFields.length > 0 && !(sortableFields.contains s.field) then none
    else some (s.field ++ " " ++ (if s.order == "DESC" then "DESC" else "ASC")))

/-! ## CRUDGenerator (generator package, raw-SQL mutation statements) -/

/-- Data entries kept by CRUDGenerator.GenerateInsert: exactly those whose key
names a schema column (the only filter this generator applies). -/
def insertKept (schema : TableSchemaG) (data : Row) : Row :=
  data.filter (fun kv => schema.fields.any (fun f => f.name == kv.1))

/-- CRUDGenerator.GenerateInsert. -/
def GenerateInsert (schema : TableSchemaG) (data : Row) :
    Except String (String × List Value) :=
  if data.isEmpty then .error "no data provided for insert"
  else
    let kept := insertKept schema data
    if kept.isEmpty then .error "no valid fields found for insert"
    else
      let fieldNames := kept.map Prod.fst
      let placeholders := placeholdersFrom 1 kept.length
      let returningClause :=
        match schema.fields.find? (fun f => f.primaryKey) with
        | some pk => " RETURNING " ++ pk.name
        | none => ""
      .ok ("INSERT INTO " ++ schema.tableName ++ " (" ++ joinSep ", " fieldNames ++
             ") VALUES (" ++ joinSep ", " placeholders ++ ")" ++ returningClause,
           kept.map Prod.snd)

/-- Data entries kept by CRUDGenerator.GenerateUpdate: the primary key is
skipped, the key must name a schema column, and when the configured updatable
whitelist is non-empty the key must also be whitelisted (an empty whitelist
admits every non-key schema column). -/
def updateKept (schema : TableSchemaG) (updatable : List String) (pkName : String)
    (data : Row) : Row :=
  data.filter (fun kv =>
    kv.1 != pkName && schema.fields.any (fun f => f.name == kv.1) &&
      (updatable.isEmpty || updatable.contains kv.1))

/-- CRUDGenerator.GenerateUpdate; the identifying id is always the last bound
argument. -/
def GenerateUpdate (schema : TableSchemaG) (updatable : List String) (id : Value)
    (data : Row) : Except String (String × List Value) :=
  if data.isEmpty then .error "no data provided for update"
  else
    match schema.fields.find? (fun f => f.primaryKey) with
    | none => .error "no primary key field found"
    | some pk =>
      let kept := updateKept schema updatable pk.name data
      if kept.isEmpty then .error "no valid fields found for update"
      else
        let setParts :=
          (kept.zip (List.range kept.length)).map
            (fun p => p.1.1 ++ " = $" ++ toString (p.2 + 1))
        .ok ("UPDATE " ++ schema.tableName ++ " SET " ++ joinSep ", " setParts ++
               " WHERE " ++ pk.name ++ " = $" ++ toString (kept.length + 1),
             kept.map Prod.snd ++ [id])

/-! ## CRUDService.Create / CRUDService.Update (services package)

The per-field validation rules (types.FieldValidation) and the create/update
pipeline of crud_service.go.  Regular-expression matching is performed by the
Go regexp standard library; it enters the embedding as the parameter `rm`,
where `rm pattern s = none` models a pattern compilation error and
`rm pattern s = some b` a successful match returning `b`. -/

/-- types.FieldValidation. -/
structure FieldValidation where
  minLength : Option Int := none
  maxLength : Option Int := none
  minVal : Option Int := none
  maxVal : Option Int := none
  pattern : String := ""
  errorMessage : String := ""

/-- types.CreatableField (select options omitted; they are UI-only). -/
structure CreatableField where
  field : String
  label : String := ""
  required : Bool := false
  defaultType : String := ""
  defaultValue : String := ""
  validation : Option FieldValidation := none

/-- types.UpdatableField. -/
structure UpdatableField where
  field : String
  label : String := ""
  required : Bool := false
  validation : Option FieldValidation := none

/-- types.ValidationError. -/
structure VErr where
  field : String
  tag : String
  value : Value
  message : String

/-- String-length section of CRUDService.validateFieldValue: Go `len` counts
bytes, so lengths are UTF-8 byte sizes; non-string values skip the check. -/
def lengthErr (field : String) (value : Value) (v : FieldValidation) : Option String :=
  if v.minLength.isSome || v.maxLength.isSome then
    match value with
    | .vstr s =>
      let length : Int := (s.utf8ByteSize : Int)
      match v.minLength with
      | some mn =>
        if length < mn then
          some (if v.errorMessage != "" then v.errorMessage
                else "field \x27" ++ field ++ "\x27 must be at least " ++ toString mn ++
                  " characters")
        else
          match v.maxLength with
          | some mx =>
            if length > mx then
              some (if v.errorMessage != "" then v.errorMessage
                    else "field \x27" ++ field ++ "\x27 must be at most " ++ toString mx ++
                      " characters")
            else none
          | none => none
      | none =>
        match v.maxLength with
        | some mx =>
          if length > mx then
            some (if v.errorMessage != "" then v.errorMessage
                  else "field \x27" ++ field ++ "\x27 must be at most " ++ toString mx ++
                    " characters")
          else none
        | none => none
    | _ => none
  else none

/-- Numeric section of CRUDService.validateFieldValue: integers are used as
they are, strings go through strconv.Atoi, anything else is an error. -/
def numericErr (field : String) (value : Value) (v : FieldValidation) : Option String :=
  if v.minVal.isSome || v.maxVal.isSome then
    match
      (match value with
       | .vint n => Except.ok n
       | .vstr s =>
         match atoi s with
         | some n => Except.ok n
         | none => Except.error ("field \x27" ++ field ++ "\x27 must be a valid number")
       | _ => Except.error ("field \x27" ++ field ++ "\x27 must be a number") :
        Except String Int) with
    | .error e => some e
    | .ok n =>
      match v.minVal with
      | some mn =>
        if n < mn then
          some (if v.errorMessage != "" then v.errorMessage
                else "field \x27" ++ field ++ "\x27 must be at least " ++ toString mn)
        else
          match v.maxVal with
          | some mx =>
            if n > mx then
              some (if v.errorMessage != "" then v.errorMessage
                    else "field \x27" ++ field ++ "\x27 must be at most " ++ toString mx)
            else none
          | none => none
      | none =>
        match v.maxVal with
        | some mx =>
          if n > mx then
            some (if v.errorMessage != "" then v.errorMessage
                  else "field \x27" ++ field ++ "\x27 must be at most " ++ toString mx)
          else none
        | none => none
  else none

/-- Pattern section of CRUDService.validateFieldValue. -/
def patternErr (rm : String → String → Option Bool) (field : String) (value : Value)
    (v : FieldValidation) : Option String :=
  if v.pattern != "" then
    match value with
    | .vstr s =>
      match rm v.pattern s with
      | none => some ("invalid pattern for field \x27" ++ field ++ "\x27")
      | some true => none
      | some false =>
        some (if v.errorMessage != "" then v.errorMessage
              else "field \x27" ++ field ++ "\x27 does not match required pattern")
    | _ => none
  else none

/-- CRUDService.validateFieldValue: the first violated section produces the
(single) error for this field. -/
def validateFieldValue (rm : String → String → Option Bool) (field : String)
    (value : Value) (v : FieldValidation) : Option String :=
  match lengthErr field value v with
  | some e => some e
  | none =>
    match numericErr field value v with
    | some e => some e
    | none => patternErr rm field value v

/-- Required-field test from CRUDService.Create and CRUDService.Update:
`!exists || value == nil || value == ""`. -/
def requiredViolated (data : Row) (name : String) : Bool :=
  match lookupA data name with
  | none => true
  | some v => v.isNull || v.isEmptyStr

/-- Validation errors one creatable field contributes in CRUDService.Create:
a `required` entry when the required test fails, then a `validation` entry when
the field is present and its rules are violated. -/
def creatableFieldErrs (rm : String → String → Option Bool) (data : Row)
    (f : CreatableField) : List VErr :=
  (if f.required && requiredViolated data f.field then
     [{ field := f.field, tag := "required",
        value := (lookupA data f.field).getD Value.vnull,
        message := f.label ++ " is required" }]
   else []) ++
  (match lookupA data f.field, f.validation with
   | some v, some rules =>
     match validateFieldValue rm f.field v rules with
     | some msg => [{ field := f.field, tag := "validation", value := v, message := msg }]
     | none => []
   | _, _ => [])

/-- Validation loop of CRUDService.Create: all violations over all creatable
fields are collected in configuration order. -/
def validateCreatable (rm : String → String → Option Bool)
    (fields : List CreatableField) (data : Row) : List VErr :=
  fields.flatMap (creatableFieldErrs rm data)

/-- Validation errors one updatable field contributes in CRUDService.Update
(same shape as for creatable fields). -/
def updatableFieldErrs (rm : String → String → Option Bool) (data : Row)
    (f : UpdatableField) : List VErr :=
  (if f.required && requiredViolated data f.field then
     [{ field := f.field, tag := "required",
        value := (lookupA data f.field).getD Value.vnull,
        message := f.label ++ " is required" }]
   else []) ++
  (match lookupA data f.field, f.validation with
   | some v, some rules =>
     match validateFieldValue rm f.field v rules with
     | some msg => [{ field := f.field, tag := "validation", value := v, message := msg }]
     | none => []
   | _, _ => [])

/-- Validation loop of CRUDService.Update. -/
def validateUpdatable (rm : String → String → Option Bool)
    (fields : List UpdatableField) (data : Row) : List VErr :=
  fields.flatMap (updatableFieldErrs rm data)

/-- Table state: the rows of the target table, each a column-to-value map. -/
abbrev DBState := List Row

/-- Models the `SELECT COALESCE(MAX(col), 0)` scan used by the auto_increment
default: the maximum integer stored in the column, zero for an empty table. -/
def dbMaxInt (st : DBState) (col : String) : Int :=
  st.foldl (fun acc row =>
    match lookupA row col with
    | some (.vint k) => if k > acc then k else acc
    | _ => acc) 0

/-- The default value one creatable field contributes when the caller supplied
none: fixed copies the configured literal (skipped when empty), auto_increment
stores max+1 read from the live table, current_time and uuid store the
server-side expression strings used by the Go code; an unrecognized default
type contributes nothing. -/
def defaultValueFor (st : DBState) (f : CreatableField) : Option Value :=
  if f.defaultType == "fixed" then
    (if f.defaultValue != "" then some (Value.vstr f.defaultValue) else none)
  else if f.defaultType == "auto_increment" then
    some (Value.vint (dbMaxInt st f.field + 1))
  else if f.defaultType == "current_time" then some (Value.vstr "now()")
  else if f.defaultType == "uuid" then some (Value.vstr "gen_random_uuid()")
  else none

/-- One iteration of the default-value loop of CRUDService.Create. -/
def applyOneDefault (st : DBState) (d : Row) (f : CreatableField) : Row :=
  if f.defaultType != "" && f.field != "" && (lookupA d f.field).isNone then
    match defaultValueFor st f with
    | some v => setA d f.field v
    | none => d
  else d

/-- Default-value pass of CRUDService.Create. -/
def applyCreateDefaults (fields : List CreatableField) (data : Row) (st : DBState) : Row :=
  fields.foldl (applyOneDefault st) data

/-- Whitelist filter of CRUDService.Create / CRUDService.Update: the data map
is reduced to the whitelisted keys (in whitelist order), silently dropping
everything else. -/
def filterToFields (wl : List String) (data : Row) : Row :=
  wl.filterMap (fun f => (lookupA data f).map (fun v => (f, v)))

/-- Data handed to SQL generation by CRUDService.Create: defaults applied,
then filtered to the creatable whitelist when one is configured. -/
def createFiltered (fields : List CreatableField) (data : Row) (st : DBState) : Row :=
  let d1 := applyCreateDefaults fields data st
  if fields.isEmpty then d1
  else filterToFields (fields.map (fun f => f.field)) d1

/-- Validation outcome of CRUDService.Create (empty when no creatable fields
are configured, as in the Go guard). -/
def createErrs (rm : String → String → Option Bool) (fields : List CreatableField)
    (data : Row) (st : DBState) : List VErr :=
  if fields.isEmpty then [] else validateCreatable rm fields (createFiltered fields data st)

/-- Result shape of CRUDService.Create. -/
structure CreateResultM where
  id : Option Value := none
  errors : List VErr := []
  success : Bool

/-- CRUDService.Create: apply defaults, filter to the whitelist, validate; on
any validation error return a structured failure and leave the table
untouched, otherwise insert the filtered row. -/
def createService (rm : String → String → Option Bool) (fields : List CreatableField)
    (data : Row) (st : DBState) : CreateResultM × DBState :=
  if (createErrs rm fields data st).isEmpty then
    ({ success := true, id := lookupA (createFiltered fields data st) "id" },
     st ++ [createFiltered fields data st])
  else
    ({ success := false, errors := createErrs rm fields data st }, st)

/-- Data handed to SQL generation by CRUDService.Update. -/
def updateFiltered (fields : List UpdatableField) (data : Row) : Row :=
  if fields.isEmpty then data
  else filterToFields (fields.map (fun f => f.field)) data

/-- Validation outcome of CRUDService.Update. -/
def updateErrs (rm : String → String → Option Bool) (fields : List UpdatableField)
    (data : Row) : List VErr :=
  if fields.isEmpty then [] else validateUpdatable rm fields (updateFiltered fields data)

/-- Result shape of CRUDService.Update. -/
structure UpdateResultM where
  rowsAffected : Nat := 0
  errors : List VErr := []
  success : Bool

/-- Column-wise application of an UPDATE SET list to one row. -/
def mergeRow (row updates : Row) : Row :=
  updates.foldl (fun r kv => setA r kv.1 kv.2) row

/-- Test used by the GORM `WHERE id = ?` clause of CRUDService.Update. -/
def matchesId (id : Value) (row : Row) : Bool :=
  match lookupA row "id" with
  | some w => valueEq w id
  | none => false

/-- CRUDService.Update: filter to the whitelist, validate; on any validation
error return a structured failure and leave the table untouched, otherwise
update the rows matching `WHERE id = ?`. -/
def updateService (rm : String → String → Option Bool) (fields : List UpdatableField)
    (id : Value) (data : Row) (st : DBState) : UpdateResultM × DBState :=
  if (updateErrs rm fields data).isEmpty then
    ({ success := true, rowsAffected := st.countP (fun row => matchesId id row) },
     st.map (fun row =>
       if matchesId id row then mergeRow row (updateFiltered fields data) else row))
  else
    ({ success := false, errors := updateErrs rm fields data }, st)

/-! ## PostgreSQLParser (parser package)

The parser uses several Go regular expressions; each is modelled by an explicit
scanning function.  The fields-extraction regex is modelled on single-line
statements (the dot in a Go regexp does not cross newlines, so only one-line
bodies are matched by the original as well). -/

/-- The single-quote character (written by code point to keep the source free
of quote-literal noise). -/
def squote : Char := Char.ofNat 39

/-- Case-insensitive literal-prefix match; returns the remaining input. -/
def matchCIAux : List Char → List Char → Option (List Char)
  | [], cs => some cs
  | _ :: _, [] => none
  | p :: ps, c :: cs => if c.toLower == p.toLower then matchCIAux ps cs else none

/-- Case-insensitive literal-prefix match for a pattern string. -/
def matchCIPrefix (pat : String) (cs : List Char) : Option (List Char) :=
  matchCIAux pat.data cs

/-- Case-sensitive literal-prefix match; returns the remaining input. -/
def matchLitPrefix (pat : String) (cs : List Char) : Option (List Char) :=
  if pat.data.isPrefixOf cs then some (cs.drop pat.data.length) else none

/-- Models `\s+` followed by greedy whitespace consumption. -/
def wsPlus : List Char → Option (List Char)
  | [] => none
  | c :: rest => if wsp c then some (rest.dropWhile (fun x => wsp x)) else none

/-- Decimal value of a digit run. -/
def natOfDigits (cs : List Char) : Nat :=
  cs.foldl (fun acc c => acc * 10 + (c.toNat - 48)) 0

/-- PostgreSQLParser.parseFields, splitting stage: top-level comma split
respecting nested parentheses and quoted regions (double or single quotes). -/
def splitTopLevel : List Char → Bool → Char → Int → List Char → List String
  | [], _, _, _, current => [String.mk current]
  | c :: rest, inQuotes, quoteChar, depth, current =>
    if c == '"' || c == squote then
      let inQ2 := if !inQuotes then true else if c == quoteChar then false else inQuotes
      let qc2 := if !inQuotes then c else quoteChar
      splitTopLevel rest inQ2 qc2 depth (current ++ [c])
    else if c == '(' then
      splitTopLevel rest inQuotes quoteChar (if inQuotes then depth else depth + 1)
        (current ++ [c])
    else if c == ')' then
      splitTopLevel rest inQuotes quoteChar (if inQuotes then depth else depth - 1)
        (current ++ [c])
    else if c == ',' then
      if !inQuotes && depth == 0 then
        String.mk current :: splitTopLevel rest inQuotes quoteChar depth []
      else splitTopLevel rest inQuotes quoteChar depth (current ++ [c])
    else splitTopLevel rest inQuotes quoteChar depth (current ++ [c])

/-- PostgreSQLParser.isConstraint: a body line is discarded as a constraint
when its upper-cased trimmed text starts with one of a fixed prefix set. -/
def isConstraint (fieldStr : String) : Bool :=
  let s := upperStr (trimStr fieldStr)
  ["PRIMARY KEY", "FOREIGN KEY", "UNIQUE", "CHECK", "CONSTRAINT"].any
    (fun c => hasPrefixStr s c)

/-- PostgreSQLParser.splitFieldDefinition, character loop: tokens split on
space, tab and newline outside quotes and parentheses. -/
def splitFieldDefAux : List Char → Bool → Char → Int → List Char → List String
  | [], _, _, _, current => if current.isEmpty then [] else [String.mk current]
  | c :: rest, inQuotes, quoteChar, depth, current =>
    if c == '"' || c == squote then
      let inQ2 := if !inQuotes then true else if c == quoteChar then false else inQuotes
      let qc2 := if !inQuotes then c else quoteChar
      splitFieldDefAux rest inQ2 qc2 depth (current ++ [c])
    else if c == '(' then
      splitFieldDefAux rest inQuotes quoteChar (if inQuotes then depth else depth + 1)
        (current ++ [c])
    else if c == ')' then
      splitFieldDefAux rest inQuotes quoteChar (if inQuotes then depth else depth - 1)
        (current ++ [c])
    else if c == ' ' || c == '\t' || c == '\n' then
      if inQuotes || depth > 0 then splitFieldDefAux rest inQuotes quoteChar depth (current ++ [c])
      else if current.isEmpty then splitFieldDefAux rest inQuotes quoteChar depth []
      else String.mk current :: splitFieldDefAux rest inQuotes quoteChar depth []
    else splitFieldDefAux rest inQuotes quoteChar depth (current ++ [c])

/-- PostgreSQLParser.splitFieldDefinition. -/
def splitFieldDefinition (s : String) : List String :=
  splitFieldDefAux s.data false ' ' 0 []

/-- Models strings.Trim with a double-quote cutset. -/
def trimDQ (s : String) : String :=
  String.mk (((s.data.dropWhile (fun c => c == '"')).reverse.dropWhile
    (fun c => c == '"')).reverse)

/-- Normalized PostgreSQL type enum from the types package. -/
inductive PGType where
  | integer | bigint | smallint | numeric | real | double | text | varchar | char
  | bytea | boolean | date | time | timestamp | timestamptz | interval | json | jsonb
  | uuid | array
deriving DecidableEq

/-- Parsed column metadata, types.TableField. -/
structure TableFieldP where
  name : String
  type : PGType
  length : Int := 0
  precision : Int := 0
  scale : Int := 0
  notNull : Bool := false
  primaryKey : Bool := false
  unique : Bool := false
  defaultValue : Option String := none
deriving DecidableEq

/-- Parsed schema, types.TableSchema. -/
structure TableSchemaP where
  tableName : String
  fields : List TableFieldP
deriving DecidableEq

/-- Models the parenthesized-arguments tail shared by the numeric and sized
type regexes: optional whitespace, an opening parenthesis, a digit run, an
optional comma-separated second digit run, a closing parenthesis, end of
input. -/
def parseParenInts (cs : List Char) : Option (Nat × Option Nat) :=
  match cs.dropWhile (fun c => wsp c) with
  | '(' :: cs1 =>
    let cs2 := cs1.dropWhile (fun c => wsp c)
    let digs1 := cs2.takeWhile Char.isDigit
    if digs1.isEmpty then none
    else
      match (cs2.dropWhile Char.isDigit).dropWhile (fun c => wsp c) with
      | ',' :: cs4 =>
        let cs5 := cs4.dropWhile (fun c => wsp c)
        let digs2 := cs5.takeWhile Char.isDigit
        if digs2.isEmpty then none
        else
          match (cs5.dropWhile Char.isDigit).dropWhile (fun c => wsp c) with
          | [')'] => some (natOfDigits digs1, some (natOfDigits digs2))
          | _ => none
      | [')'] => some (natOfDigits digs1, none)
      | _ => none
  | _ => none

/-- Models the anchored regex for numeric and decimal types with precision and
optional scale. -/
def parseNumericType (t : String) : Option (Nat × Option Nat) :=
  match matchLitPrefix "numeric" t.data with
  | some rest => parseParenInts rest
  | none =>
    match matchLitPrefix "decimal" t.data with
    | some rest => parseParenInts rest
    | none => none

/-- Length argument of a sized type when the tail matches and carries no
second argument. -/
def parseSizedAfter (rest : List Char) : Option Nat :=
  match parseParenInts rest with
  | some (n, none) => some n
  | _ => none

/-- Final alternatives (bit and varbit) of the sized-type regex. -/
def tryAfterChar (t : String) : Option (String × Nat) :=
  match matchLitPrefix "bit" t.data with
  | some rest =>
    match parseSizedAfter rest with
    | some n => some ("bit", n)
    | none =>
      match matchLitPrefix "varbit" t.data with
      | some rest2 => (parseSizedAfter rest2).map (fun n => ("varbit", n))
      | none => none
  | none =>
    match matchLitPrefix "varbit" t.data with
    | some rest2 => (parseSizedAfter rest2).map (fun n => ("varbit", n))
    | none => none

/-- Remaining alternatives of the sized-type regex after varchar. -/
def tryAfterVarchar (t : String) : Option (String × Nat) :=
  match matchLitPrefix "char" t.data with
  | some rest =>
    match parseSizedAfter rest with
    | some n => some ("char", n)
    | none => tryAfterChar t
  | none => tryAfterChar t

/-- Models the anchored regex for the sized types varchar, char, bit and
varbit, trying the alternatives in the order they appear in the pattern. -/
def parseSizedType (t : String) : Option (String × Nat) :=
  match matchLitPrefix "varchar" t.data with
  | some rest =>
    match parseSizedAfter rest with
    | some n => some ("varchar", n)
    | none => tryAfterVarchar t
  | none => tryAfterVarchar t

/-- Models the anchored regex for array types: a non-empty single-line body
followed by square brackets. -/
def parseArrayType (t : String) : Bool :=
  let cs := t.data
  decide (cs.length ≥ 3) && cs.reverse.take 2 == [']', '['] &&
    (cs.take (cs.length - 2)).all (fun c => c != '\n')

/-- The fixed token-to-type table of PostgreSQLParser.parseDataType. -/
def typeMapLookup : List (String × PGType) :=
  [("integer", .integer), ("int", .integer), ("int4", .integer),
   ("bigint", .bigint), ("int8", .bigint),
   ("smallint", .smallint), ("int2", .smallint),
   ("numeric", .numeric), ("decimal", .numeric),
   ("real", .real), ("float4", .real),
   ("double precision", .double), ("float8", .double),
   ("text", .text),
   ("varchar", .varchar), ("character varying", .varchar),
   ("char", .char), ("character", .char),
   ("bytea", .bytea),
   ("boolean", .boolean), ("bool", .boolean),
   ("date", .date), ("time", .time),
   ("timestamp", .timestamp), ("timestamp without time zone", .timestamp),
   ("timestamptz", .timestamptz), ("timestamp with time zone", .timestamptz),
   ("interval", .interval),
   ("json", .json), ("jsonb", .jsonb),
   ("uuid", .uuid)]

/-- PostgreSQLParser.parseDataType.  A sized match for bit or varbit has no
case in the Go switch and falls through to the remaining checks, and an
unrecognized token is a hard error. -/
def parseDataType (typeStr : String) : Except String (PGType × Int × Int × Int) :=
  let t := lowerStr (trimStr typeStr)
  match parseNumericType t with
  | some (p, s) => .ok (.numeric, 0, (p : Int), ((s.getD 0 : Nat) : Int))
  | none =>
    match parseSizedType t with
    | some ("varchar", len) => .ok (.varchar, (len : Int), 0, 0)
    | some ("char", len) => .ok (.char, (len : Int), 0, 0)
    | _ =>
      if parseArrayType t then .ok (.array, 0, 0, 0)
      else
        match typeMapLookup.find? (fun kv => kv.1 == t) with
        | some kv => .ok (kv.2, 0, 0, 0)
        | none => .error ("unsupported PostgreSQL type: " ++ t)

/-- Character allowed inside the captured default token: anything but
whitespace or a comma. -/
def notTokEnd (c : Char) : Bool := !(wsp c) && c != ','

/-- Terminator test of the DEFAULT-clause regex: whitespace followed by one of
the constraint keywords. -/
def kwAfterWs (cs : List Char) : Bool :=
  match wsPlus cs with
  | none => false
  | some cs1 =>
    (match matchCIPrefix "NOT" cs1 with
     | some cs2 => ((wsPlus cs2).bind (matchCIPrefix "NULL")).isSome
     | none => false) ||
    (match matchCIPrefix "PRIMARY" cs1 with
     | some cs2 => ((wsPlus cs2).bind (matchCIPrefix "KEY")).isSome
     | none => false) ||
    (matchCIPrefix "UNIQUE" cs1).isSome ||
    (matchCIPrefix "CHECK" cs1).isSome ||
    (matchCIPrefix "REFERENCES" cs1).isSome

/-- Lazy expansion loop of the DEFAULT-clause capture: stop at the earliest
point where a constraint keyword or the end of input follows, otherwise
consume one more whitespace-separated token.  The fuel argument bounds the
recursion by the remaining input length. -/
def defaultCapture : Nat → List Char → List Char → Option String
  | 0, _, _ => none
  | fuel + 1, cur, cs =>
    if kwAfterWs cs then some (String.mk cur)
    else
      match cs with
      | [] => some (String.mk cur)
      | c :: rest =>
        if wsp c then
          let ws := (c :: rest).takeWhile (fun x => wsp x)
          let rest2 := (c :: rest).dropWhile (fun x => wsp x)
          let tok := rest2.takeWhile notTokEnd
          defaultCapture fuel (cur ++ ws ++ tok) (rest2.dropWhile notTokEnd)
        else none

/-- One attempt of the DEFAULT-clause regex at the current position. -/
def extractDefaultAt (cs : List Char) : Option String :=
  match matchCIPrefix "DEFAULT" cs with
  | some rest =>
    match wsPlus rest with
    | some rest2 =>
      let tok := rest2.takeWhile notTokEnd
      if tok.isEmpty then none
      else defaultCapture (rest2.length + 1) tok (rest2.dropWhile notTokEnd)
    | none => none
  | none => none

/-- Leftmost search of the DEFAULT-clause regex over the constraint tail. -/
def extractDefaultFrom : List Char → Option String
  | [] => none
  | c :: rest =>
    match extractDefaultAt (c :: rest) with
    | some s => some s
    | none => extractDefaultFrom rest

/-- DEFAULT-clause extraction of PostgreSQLParser.parseField (the captured
expression is trimmed, as in the Go code). -/
def extractDefault (constraintStr : String) : Option String :=
  (extractDefaultFrom constraintStr.data).map (fun s => trimStr s)

/-- PostgreSQLParser.parseField. -/
def parseField (fieldStr : String) : Except String TableFieldP :=
  let s := trimStr fieldStr
  match splitFieldDefinition s with
  | p0 :: p1 :: rest =>
    match parseDataType p1 with
    | .error e => .error ("failed to parse data type \x27" ++ p1 ++ "\x27: " ++ e)
    | .ok (ty, len, prec, sc) =>
      let constraintStr := joinSep " " rest
      let up := upperStr constraintStr
      .ok { name := trimDQ p0, type := ty, length := len, precision := prec, scale := sc,
            notNull := containsSub up "NOT NULL",
            primaryKey := containsSub up "PRIMARY KEY",
            unique := containsSub up "UNIQUE",
            defaultValue := extractDefault constraintStr }
  | _ => .error ("invalid field definition: " ++ s)

/-- Per-chunk processing of PostgreSQLParser.parseFields: blank chunks and
constraint lines are skipped without error, remaining chunks are parsed as
columns, failing at the first malformed one. -/
def parseChunks : List String → Except String (List TableFieldP)
  | [] => .ok []
  | chunk :: rest =>
    let fieldStr := trimStr chunk
    if fieldStr == "" || isConstraint fieldStr then parseChunks rest
    else
      match parseField fieldStr with
      | .error e => .error ("failed to parse field \x27" ++ fieldStr ++ "\x27: " ++ e)
      | .ok f =>
        match parseChunks rest with
        | .error e => .error e
        | .ok fs => .ok (f :: fs)

/-- PostgreSQLParser.parseFields. -/
def parseFields (fieldsContent : String) : Except String (List TableFieldP) :=
  parseChunks (splitTopLevel fieldsContent.data false ' ' 0 [])

/-- Character allowed in the captured table name: anything but whitespace or
an opening parenthesis. -/
def nameChar (c : Char) : Bool := !(wsp c) && c != '('

/-- One attempt of the table-name regex at the current position, including the
optional IF NOT EXISTS group with its backtracking. -/
def tableHeaderAt (cs : List Char) : Option String :=
  match matchCIPrefix "CREATE" cs with
  | none => none
  | some r1 =>
    match wsPlus r1 with
    | none => none
    | some r2 =>
      match matchCIPrefix "TABLE" r2 with
      | none => none
      | some r3 =>
        match wsPlus r3 with
        | none => none
        | some r4 =>
          let body := fun (r : List Char) =>
            let nm := r.takeWhile nameChar
            if nm.isEmpty then none else some (String.mk nm)
          let afterINE : Option (List Char) :=
            match matchCIPrefix "IF" r4 with
            | some a1 =>
              ((((wsPlus a1).bind (matchCIPrefix "NOT")).bind wsPlus).bind
                (matchCIPrefix "EXISTS")).bind wsPlus
            | none => none
          match afterINE with
          | some r5 =>
            match body r5 with
            | some nm => some nm
            | none => body r4
          | none => body r4

/-- Leftmost search of the table-name regex. -/
def extractTableName : List Char → Option String
  | [] => none
  | c :: rest =>
    match tableHeaderAt (c :: rest) with
    | some nm => some nm
    | none => extractTableName rest

/-- Fields-content extraction: the text between the first opening parenthesis
and the last closing parenthesis, with leading whitespace stripped (the
behavior of the fields regex on single-line statements). -/
def extractFieldsContent (cs : List Char) : Option String :=
  match cs.dropWhile (fun c => c != '(') with
  | [] => none
  | _ :: afterParen =>
    match afterParen.reverse.dropWhile (fun c => c != ')') with
    | [] => none
    | _ :: revContent =>
      let content2 := revContent.reverse.dropWhile (fun c => wsp c)
      if content2.isEmpty then none else some (String.mk content2)

/-- PostgreSQLParser.ParseCreateStatement. -/
def ParseCreateStatement (createSQL : String) : Except String TableSchemaP :=
  let s := trimStr createSQL
  match extractTableName s.data with
  | none => .error "cannot extract table name from CREATE statement"
  | some rawName =>
    match extractFieldsContent s.data with
    | none => .error "cannot extract fields from CREATE statement"
    | some fieldsContent =>
      match parseFields fieldsContent with
      | .error e => .error ("failed to parse fields: " ++ e)
      | .ok fields => .ok { tableName := trimDQ rawName, fields := fields }

/-! ## Value shapes and spec-side descriptions

`sameShape` captures exactly what the generated SQL text is allowed to depend
on: the dynamic kind of a value, whether a string renders empty, the length of
an array, and the presence pattern of non-nil range bounds.  Two shape-equal
values may otherwise differ arbitrarily. -/

/-- Presence of a non-nil entry under a key. -/
def hasNN (m : Row) (k : String) : Bool := (getNN m k).isSome

/-- Shape equality of two request values (see the section comment). -/
def sameShape : Value → Value → Bool
  | .vnull, .vnull => true
  | .vstr a, .vstr b => (a == "") == (b == "")
  | .vint _, .vint _ => true
  | .varr xs, .varr ys => xs.length == ys.length
  | .vmap ps, .vmap qs =>
    (hasNN ps "min" == hasNN qs "min") && (hasNN ps "max" == hasNN qs "max")
  | _, _ => false

/-- Pointwise shape equality of two value lists. -/
def sameShapes : List Value → List Value → Bool
  | [], [] => true
  | v :: vs, w :: ws => sameShape v w && sameShapes vs ws
  | _, _ => false

/-- Spec-side description of the bound arguments one configured search value
contributes, following the wording of the spec: the input value appears
literally, except that a fuzzy value is wrapped in percent signs (and an empty
fuzzy rendering, an empty array, a missing bound or an unconfigured key
contribute nothing). -/
def specFieldArgs : SearchType → Value → List Value
  | .fuzzy, v => if display v == "" then [] else [Value.vstr ("%" ++ display v ++ "%")]
  | .exact, v => [v]
  | .single, v => [v]
  | .multi, v =>
    match v with
    | .varr xs => xs
    | _ => []
  | .range, v =>
    match v with
    | .vmap m => (getNN m "min").toList ++ (getNN m "max").toList
    | _ => []
  | _, _ => []

/-- Spec-side description of the full bound-argument list of a generated
query: the configured search values in request order, each contributed
literally per `specFieldArgs`, skipping nil values and unconfigured keys. -/
def specBoundArgs (sfs : List SearchField) : List (String × Value) → List Value
  | [] => []
  | (k, v) :: rest =>
    (if v.isNull then []
     else
       match searchFieldFor sfs k with
       | none => []
       | some sf => specFieldArgs sf.type v) ++ specBoundArgs sfs rest

/-- The search fields a configuration exposes to the query generator. -/
def cfgSearchFields (cfg : Config) : List SearchField :=
  match cfg.queryConfig with
  | some qc => qc.searchFields
  | none => []

/-- Spec-side description of the range predicate of the placeholder-based
generator: a lower bound exactly when min is present and non-nil, an upper
bound exactly when max is present and non-nil, ANDed when both are present,
each bound to the corresponding value. -/
def specRangePredicate (f : String) (i : Nat) :
    Option Value → Option Value → String × List Value × Nat
  | some a, some b =>
    (f ++ " >= $" ++ toString i ++ " AND " ++ f ++ " <= $" ++ toString (i + 1),
     [a, b], i + 2)
  | some a, none => (f ++ " >= $" ++ toString i, [a], i + 1)
  | none, some b => (f ++ " <= $" ++ toString i, [b], i + 1)
  | none, none => ("", [], i)

/-- Spec-side description of the range clauses of the GORM-backed list path:
one independent clause per present bound. -/
def specRangeClauses (f : String) (omin omax : Option Value) : List (String × List Value) :=
  (omin.toList.map (fun a => (f ++ " >= ?", [a]))) ++
    (omax.toList.map (fun b => (f ++ " <= ?", [b])))

/-- Validity of one requested sort entry as buildOrderClause checks it: the
field is whitelisted and the order, after defaulting empty to ASC, passes the
exact ASC/DESC test. -/
def validSortEntry (sortableFields : List String) (s : SortFieldC) : Bool :=
  sortableFields.contains s.field &&
    !(normOrder s.order != "ASC" && normOrder s.order != "DESC")

/-! ## Concrete fixtures used by witnesses and counterexamples -/

/-- A small users table as the generators see it. -/
def usersG : TableSchemaG :=
  { tableName := "users",
    fields := [{ name := "id", primaryKey := true }, { name := "name", primaryKey := false },
               { name := "role", primaryKey := false }] }

/-- Query configuration with one fuzzy search field and pagination. -/
def fuzzyNameQC : QueryConfig :=
  { pagination := true, searchFields := [{ field := "name", type := .fuzzy }],
    sortableFields := ["name"] }

/-- Config wrapping `fuzzyNameQC`. -/
def cfgFuzzy : Config := { queryConfig := some fuzzyNameQC }

/-- Query configuration with one multi_select search field. -/
def msQC : QueryConfig :=
  { pagination := true, searchFields := [{ field := "tags", type := .multiSelect }],
    sortableFields := [] }

/-- Config wrapping `msQC`. -/
def cfgMS : Config := { queryConfig := some msQC }

/-! ## Proof-side relations and further fixtures -/

/-- Relation between two per-field generator results that may differ only in
the bound values: same condition text, same next index, or the same error. -/
def condRel : Except String (String × List Value × Nat) →
    Except String (String × List Value × Nat) → Prop
  | .ok (c1, _, j1), .ok (c2, _, j2) => c1 = c2 ∧ j1 = j2
  | .error e1, .error e2 => e1 = e2
  | _, _ => False

/-- Relation between two condition-list results: same conditions and final
index, or the same error. -/
def condsRel : Except String (List String × List Value × Nat) →
    Except String (List String × List Value × Nat) → Prop
  | .ok (cs1, _, j1), .ok (cs2, _, j2) => cs1 = cs2 ∧ j1 = j2
  | .error e1, .error e2 => e1 = e2
  | _, _ => False

/-- Agreement of two data maps on every key outside a given set. -/
def agreeOff (bad : List String) (d1 d2 : Row) : Prop :=
  ∀ k, ¬ k ∈ bad → lookupA d1 k = lookupA d2 k

/-! ## Further fixtures -/

/-- A creatable-field whitelist admitting only `name`. -/
def creatableNameOnly : List CreatableField := [{ field := "name" }]

/-- One required creatable field, for exercising validation failures. -/
def reqOnlyC : List CreatableField := [{ field := "a", label := "A", required := true }]

/-- One required updatable field, for exercising validation failures. -/
def reqOnlyU : List UpdatableField := [{ field := "a", label := "A", required := true }]

/-- Three creatable fields carrying three independent validation rules: a
required field, a maximum string length, and a regex pattern. -/
def c7Fields : List CreatableField :=
  [{ field := "a", label := "A", required := true },
   { field := "b", validation := some { maxLength := some 5 } },
   { field := "c", validation := some { pattern := "^[0-9]+$" } }]

/-- Payload violating all three rules of `c7Fields` at once. -/
def c7Bad : Row := [("b", Value.vstr "exceedingly"), ("c", Value.vstr "abc")]

/-- Payload satisfying every rule of `c7Fields`. -/
def c7Good : Row :=
  [("a", Value.vstr "x"), ("b", Value.vstr "ok"), ("c", Value.vstr "123")]

/-- A one-row table state whose single row is `id = 1`. -/
def oneRowSt : DBState := [[("id", Value.vint 1)]]

end CrudGen


namespace CrudGen

/-! ## Helper lemmas: non-emptiness of rendered fragments -/

theorem toDigitsCore_len (b : Nat) :
    ∀ (fuel n : Nat) (ds : List Char), ds.length ≤ (Nat.toDigitsCore b fuel n ds).length := by
  intro fuel
  induction fuel with
  | zero => intro n ds; simp [Nat.toDigitsCore]
  | succ f ih =>
    intro n ds
    unfold Nat.toDigitsCore
    by_cases h : n / b = 0
    · simp [h]
    · simp [h]
      calc ds.length ≤ (((n % b).digitChar :: ds)).length := by simp
        _ ≤ _ := ih _ _

theorem nat_repr_ne_empty (n : Nat) : Nat.repr n ≠ "" := by
  unfold Nat.repr
  intro h
  have h2 : (Nat.toDigits 10 n).length = 0 := by
    have := congrArg String.length h
    simpa [List.asString, String.length] using this
  unfold Nat.toDigits at h2
  unfold Nat.toDigitsCore at h2
  by_cases h4 : n / 10 = 0
  · simp [h4] at h2
  · simp [h4] at h2
    have := toDigitsCore_len 10 n (n / 10) [(n % 10).digitChar]
    rw [h2] at this
    simp at this

theorem int_toString_ne_empty (n : Int) : toString n ≠ "" := by
  show Int.repr n ≠ ""
  cases n with
  | ofNat m => exact nat_repr_ne_empty m
  | negSucc m =>
    intro h
    have e : Int.repr (Int.negSucc m) = "-" ++ Nat.repr (m + 1) := rfl
    rw [e] at h
    have h2 := congrArg String.length h
    rw [String.length_append] at h2
    have e1 : ("-" : String).length = 1 := rfl
    have e2 : ("" : String).length = 0 := rfl
    omega

theorem display_varr_eq (xs : List Value) :
    display (Value.varr xs) = "[" ++ displayList xs ++ "]" := rfl

theorem display_vmap_eq (ps : Row) :
    display (Value.vmap ps) = "map[" ++ displayPairs ps ++ "]" := rfl

theorem app3_length (x y z : String) :
    (x ++ y ++ z).length = x.length + y.length + z.length := by
  rw [String.length_append, String.length_append]

theorem display_vint_empty_false (n : Int) : (display (Value.vint n) == "") = false := by
  rw [beq_eq_false_iff_ne]
  exact int_toString_ne_empty n

theorem display_varr_empty_false (xs : List Value) :
    (display (Value.varr xs) == "") = false := by
  rw [beq_eq_false_iff_ne]
  intro h
  have h2 := congrArg String.length h
  rw [display_varr_eq, app3_length] at h2
  have e1 : ("[" : String).length = 1 := rfl
  have e2 : ("]" : String).length = 1 := rfl
  have e3 : ("" : String).length = 0 := rfl
  omega

theorem display_vmap_empty_false (ps : Row) :
    (display (Value.vmap ps) == "") = false := by
  rw [beq_eq_false_iff_ne]
  intro h
  have h2 := congrArg String.length h
  rw [display_vmap_eq, app3_length] at h2
  have e1 : ("map[" : String).length = 4 := rfl
  have e2 : ("]" : String).length = 1 := rfl
  have e3 : ("" : String).length = 0 := rfl
  omega

theorem sameShape_display_empty : ∀ {v w : Value}, sameShape v w = true →
    (display v == "") = (display w == "") := by
  intro v w h
  cases v <;> cases w
  case vnull.vnull => rfl
  case vstr.vstr a b =>
    have h2 : (a == "") = (b == "") := by simpa [sameShape] using h
    exact h2
  case vint.vint a b =>
    rw [display_vint_empty_false, display_vint_empty_false]
  case varr.varr xs ys =>
    rw [display_varr_empty_false, display_varr_empty_false]
  case vmap.vmap ps qs =>
    rw [display_vmap_empty_false, display_vmap_empty_false]
  all_goals simp [sameShape] at h

end CrudGen

namespace CrudGen


theorem sameShape_null : ∀ {v w : Value}, sameShape v w = true → v.isNull = w.isNull := by
  intro v w h
  cases v <;> cases w <;> first | rfl | simp [sameShape] at h

theorem buildFieldCondition_shape (f : String) (t : SearchType) (i : Nat) {v w : Value}
    (h : sameShape v w = true) :
    condRel (buildFieldCondition f v t i) (buildFieldCondition f w t i) := by
  cases t
  case fuzzy =>
    have hd := sameShape_display_empty h
    simp only [buildFieldCondition]
    rw [hd]
    cases hw : (display w == "") <;> simp [condRel]
  case exact => simp [buildFieldCondition, condRel]
  case single => simp [buildFieldCondition, condRel]
  case multi =>
    cases v <;> cases w
    case varr.varr xs ys =>
      have hl : xs.length = ys.length := by simpa [sameShape] using h
      simp only [buildFieldCondition]
      rw [hl]
      by_cases h0 : ys.length > 0 <;> simp [h0, condRel]
    case vnull.vnull => simp [buildFieldCondition, condRel]
    case vstr.vstr a b => simp [buildFieldCondition, condRel]
    case vint.vint a b => simp [buildFieldCondition, condRel]
    case vmap.vmap p q => simp [buildFieldCondition, condRel]
    all_goals simp [sameShape] at h
  case range =>
    cases v <;> cases w
    case vnull.vnull => simp [buildFieldCondition, condRel]
    case vstr.vstr a b => simp [buildFieldCondition, condRel]
    case vint.vint a b => simp [buildFieldCondition, condRel]
    case varr.varr p q => simp [buildFieldCondition, condRel]
    case vmap.vmap ps qs =>
      have hmin : hasNN ps "min" = hasNN qs "min" := by
        have h2 := h
        simp [sameShape] at h2
        exact h2.1
      have hmax : hasNN ps "max" = hasNN qs "max" := by
        have h2 := h
        simp [sameShape] at h2
        exact h2.2
      rcases e1 : getNN ps "min" with _ | a1 <;> rcases e2 : getNN qs "min" with _ | a2 <;>
        rcases e3 : getNN ps "max" with _ | b1 <;> rcases e4 : getNN qs "max" with _ | b2 <;>
        simp [hasNN, e1, e2, e3, e4] at hmin hmax <;>
        simp [buildFieldCondition, e1, e2, e3, e4, condRel]
    all_goals simp [sameShape] at h
  case multiSelect => simp [buildFieldCondition, condRel]
  case dateRange => simp [buildFieldCondition, condRel]

end CrudGen

namespace CrudGen

theorem app3_ne_empty (x y z : String) (hy : 0 < y.length) : ¬ (x ++ y ++ z = "") := by
  intro h
  have h2 := congrArg String.length h
  rw [app3_length] at h2
  have e3 : ("" : String).length = 0 := rfl
  omega

theorem app_last_ne_empty (x y : String) (hy : 0 < y.length) : ¬ (x ++ y = "") := by
  intro h
  have h2 := congrArg String.length h
  rw [String.length_append] at h2
  have e3 : ("" : String).length = 0 := rfl
  omega

end CrudGen

namespace CrudGen

theorem buildFieldCondition_ok (f : String) (t : SearchType) (i : Nat) (v : Value)
    {c : String} {a : List Value} {j : Nat}
    (h : buildFieldCondition f v t i = .ok (c, a, j)) :
    a = specFieldArgs t v ∧ j = i + a.length ∧ (c = "" → a = []) := by
  cases t
  case fuzzy =>
    simp only [buildFieldCondition] at h
    cases hd : (display v == "") <;> rw [hd] at h <;> simp at h <;>
      obtain ⟨hc, ha, hj⟩ := h <;> subst hc <;> subst ha <;> subst hj
    · refine ⟨by simp [specFieldArgs, hd], by simp, ?_⟩
      intro hc
      exact absurd hc (app3_ne_empty f " ILIKE $" (toString i) (by decide))
    · exact ⟨by simp [specFieldArgs, hd], by simp, fun _ => rfl⟩
  case exact =>
    simp [buildFieldCondition] at h
    obtain ⟨hc, ha, hj⟩ := h
    subst hc; subst ha; subst hj
    refine ⟨rfl, by simp, ?_⟩
    intro hc
    exact absurd hc (app3_ne_empty f " = $" (toString i) (by decide))
  case single =>
    simp [buildFieldCondition] at h
    obtain ⟨hc, ha, hj⟩ := h
    subst hc; subst ha; subst hj
    refine ⟨rfl, by simp, ?_⟩
    intro hc
    exact absurd hc (app3_ne_empty f " = $" (toString i) (by decide))
  case multi =>
    cases v
    case varr xs =>
      simp only [buildFieldCondition] at h
      by_cases h0 : xs.length > 0
      · rw [if_pos h0] at h
        simp at h
        obtain ⟨hc, ha, hj⟩ := h
        subst hc; subst ha; subst hj
        refine ⟨rfl, rfl, ?_⟩
        intro hc
        exact absurd hc (app_last_ne_empty
          (f ++ " IN (" ++ joinSep ", " (placeholdersFrom i xs.length)) ")" (by decide))
      · rw [if_neg h0] at h
        simp at h
        obtain ⟨hc, ha, hj⟩ := h
        subst hc; subst ha; subst hj
        have hx : xs = [] := by
          cases xs with
          | nil => rfl
          | cons _ _ => simp at h0
        exact ⟨by simp [specFieldArgs, hx], by simp, fun _ => rfl⟩
    all_goals
      simp [buildFieldCondition] at h
      obtain ⟨hc, ha, hj⟩ := h
      subst hc; subst ha; subst hj
      exact ⟨rfl, by simp, fun _ => rfl⟩
  case range =>
    cases v
    case vmap m =>
      simp only [buildFieldCondition] at h
      rcases e1 : getNN m "min" with _ | a1 <;> rcases e2 : getNN m "max" with _ | b1 <;>
        rw [e1, e2] at h <;> simp [joinSep] at h
      · obtain ⟨hc, ha, hj⟩ := h
        subst hc; subst ha; subst hj
        exact ⟨by simp [specFieldArgs, e1, e2], by simp, fun _ => rfl⟩
      · obtain ⟨hc, ha, hj⟩ := h
        subst hc; subst ha; subst hj
        refine ⟨by simp [specFieldArgs, e1, e2], by simp, ?_⟩
        intro hc
        exact absurd hc (app3_ne_empty f " <= $" (toString i) (by decide))
      · obtain ⟨hc, ha, hj⟩ := h
        subst hc; subst ha; subst hj
        refine ⟨by simp [specFieldArgs, e1, e2], by simp, ?_⟩
        intro hc
        exact absurd hc (app3_ne_empty f " >= $" (toString i) (by decide))
      · obtain ⟨hc, ha, hj⟩ := h
        subst hc; subst ha; subst hj
        refine ⟨by simp [specFieldArgs, e1, e2], by simp, ?_⟩
        intro hc
        exact absurd hc (app3_ne_empty (f ++ " >= $" ++ toString i) " AND "
          (f ++ " <= $" ++ toString (i + 1)) (by decide))
    all_goals
      simp [buildFieldCondition] at h
      obtain ⟨hc, ha, hj⟩ := h
      subst hc; subst ha; subst hj
      exact ⟨rfl, by simp, fun _ => rfl⟩
  case multiSelect => simp [buildFieldCondition] at h
  case dateRange => simp [buildFieldCondition] at h

end CrudGen

namespace CrudGen

theorem bsc_cons_null (sfs : List SearchField) (k : String) (v : Value)
    (tl : List (String × Value)) (i : Nat) (hv : v.isNull = true) :
    buildSearchConditions sfs ((k, v) :: tl) i = buildSearchConditions sfs tl i := by
  simp [buildSearchConditions, hv]

theorem bsc_cons_nosf (sfs : List SearchField) (k : String) (v : Value)
    (tl : List (String × Value)) (i : Nat) (hv : v.isNull = false)
    (hsf : searchFieldFor sfs k = none) :
    buildSearchConditions sfs ((k, v) :: tl) i = buildSearchConditions sfs tl i := by
  simp [buildSearchConditions, hv, hsf]

theorem bsc_cons_err (sfs : List SearchField) (k : String) (v : Value)
    (tl : List (String × Value)) (i : Nat) (sf : SearchField) (e : String)
    (hv : v.isNull = false) (hsf : searchFieldFor sfs k = some sf)
    (hb : buildFieldCondition k v sf.type i = .error e) :
    buildSearchConditions sfs ((k, v) :: tl) i =
      .error ("failed to build condition for field " ++ k ++ ": " ++ e) := by
  simp [buildSearchConditions, hv, hsf, hb]

theorem bsc_cons_ok (sfs : List SearchField) (k : String) (v : Value)
    (tl : List (String × Value)) (i : Nat) (sf : SearchField) (c : String)
    (a : List Value) (j : Nat)
    (hv : v.isNull = false) (hsf : searchFieldFor sfs k = some sf)
    (hb : buildFieldCondition k v sf.type i = .ok (c, a, j)) :
    buildSearchConditions sfs ((k, v) :: tl) i =
      (if c == "" then buildSearchConditions sfs tl i
       else appendCond c a (buildSearchConditions sfs tl j)) := by
  simp [buildSearchConditions, hv, hsf, hb]

theorem buildSearchConditions_shape (sfs : List SearchField) :
    ∀ (s1 s2 : List (String × Value)) (i : Nat),
      s1.map Prod.fst = s2.map Prod.fst →
      sameShapes (s1.map Prod.snd) (s2.map Prod.snd) = true →
      condsRel (buildSearchConditions sfs s1 i) (buildSearchConditions sfs s2 i) := by
  intro s1
  induction s1 with
  | nil =>
    intro s2 i hk hs
    cases s2 with
    | nil => exact ⟨rfl, rfl⟩
    | cons hd2 tl2 => simp at hk
  | cons hd tl ih =>
    intro s2 i hk hs
    cases s2 with
    | nil => simp at hk
    | cons hd2 tl2 =>
      obtain ⟨k, v⟩ := hd
      obtain ⟨k2, w⟩ := hd2
      simp only [List.map_cons, List.cons.injEq] at hk
      obtain ⟨hkk, hktl⟩ := hk
      have hsh : sameShape v w = true ∧ sameShapes (tl.map Prod.snd) (tl2.map Prod.snd) = true := by
        simpa [sameShapes, Bool.and_eq_true] using hs
      subst hkk
      have hnull := sameShape_null hsh.1
      cases hv : v.isNull
      case true =>
        have hw : w.isNull = true := by rw [← hnull, hv]
        rw [bsc_cons_null sfs k v tl i hv, bsc_cons_null sfs k w tl2 i hw]
        exact ih tl2 i hktl hsh.2
      case false =>
        have hw : w.isNull = false := by rw [← hnull, hv]
        cases hsf : searchFieldFor sfs k with
        | none =>
          rw [bsc_cons_nosf sfs k v tl i hv hsf, bsc_cons_nosf sfs k w tl2 i hw hsf]
          exact ih tl2 i hktl hsh.2
        | some sf =>
          have hrel := buildFieldCondition_shape k sf.type i hsh.1
          cases hb1 : buildFieldCondition k v sf.type i with
          | error e1 =>
            cases hb2 : buildFieldCondition k w sf.type i with
            | error e2 =>
              rw [hb1, hb2] at hrel
              simp only [condRel] at hrel
              rw [bsc_cons_err sfs k v tl i sf e1 hv hsf hb1,
                bsc_cons_err sfs k w tl2 i sf e2 hw hsf hb2, hrel]
              exact rfl
            | ok r2 =>
              rw [hb1, hb2] at hrel
              simp [condRel] at hrel
          | ok r1 =>
            cases hb2 : buildFieldCondition k w sf.type i with
            | error e2 =>
              rw [hb1, hb2] at hrel
              obtain ⟨c1, a1, j1⟩ := r1
              simp [condRel] at hrel
            | ok r2 =>
              obtain ⟨c1, a1, j1⟩ := r1
              obtain ⟨c2, a2, j2⟩ := r2
              rw [hb1, hb2] at hrel
              simp only [condRel] at hrel
              obtain ⟨hc, hj⟩ := hrel
              subst hc
              subst hj
              rw [bsc_cons_ok sfs k v tl i sf c1 a1 j1 hv hsf hb1,
                bsc_cons_ok sfs k w tl2 i sf c1 a2 j1 hw hsf hb2]
              cases hce : (c1 == "")
              case true => exact ih tl2 i hktl hsh.2
              case false =>
                have hrec := ih tl2 j1 hktl hsh.2
                cases hr1 : buildSearchConditions sfs tl j1 with
                | error e1 =>
                  cases hr2 : buildSearchConditions sfs tl2 j1 with
                  | error e2 =>
                    rw [hr1, hr2] at hrec
                    simp only [condsRel] at hrec
                    subst hrec
                    exact rfl
                  | ok rr2 =>
                    rw [hr1, hr2] at hrec
                    simp [condsRel] at hrec
                | ok rr1 =>
                  cases hr2 : buildSearchConditions sfs tl2 j1 with
                  | error e2 =>
                    rw [hr1, hr2] at hrec
                    obtain ⟨cs1, as1, f1⟩ := rr1
                    simp [condsRel] at hrec
                  | ok rr2 =>
                    obtain ⟨cs1, as1, f1⟩ := rr1
                    obtain ⟨cs2, as2, f2⟩ := rr2
                    rw [hr1, hr2] at hrec
                    simp only [condsRel] at hrec
                    exact ⟨by rw [hrec.1], hrec.2⟩

theorem buildSearchConditions_args (sfs : List SearchField) :
    ∀ (s : List (String × Value)) (i : Nat) {cs : List String} {as : List Value} {j : Nat},
      buildSearchConditions sfs s i = .ok (cs, as, j) → as = specBoundArgs sfs s := by
  intro s
  induction s with
  | nil =>
    intro i cs as j h
    simp only [buildSearchConditions, Except.ok.injEq, Prod.mk.injEq] at h
    simp [specBoundArgs, ← h.2.1]
  | cons hd tl ih =>
    intro i cs as j h
    obtain ⟨k, v⟩ := hd
    simp only [specBoundArgs]
    cases hv : v.isNull
    case true =>
      rw [bsc_cons_null sfs k v tl i hv] at h
      simpa using ih i h
    case false =>
      cases hsf : searchFieldFor sfs k with
      | none =>
        rw [bsc_cons_nosf sfs k v tl i hv hsf] at h
        simpa using ih i h
      | some sf =>
        cases hb : buildFieldCondition k v sf.type i with
        | error e =>
          rw [bsc_cons_err sfs k v tl i sf e hv hsf hb] at h
          exact absurd h (by simp)
        | ok r =>
          obtain ⟨c, a, j1⟩ := r
          rw [bsc_cons_ok sfs k v tl i sf c a j1 hv hsf hb] at h
          have hok := buildFieldCondition_ok k sf.type i v hb
          cases hce : (c == "")
          case true =>
            rw [hce] at h
            simp only [if_true] at h
            have hc : c = "" := by simpa using hce
            have ha0 : a = [] := hok.2.2 hc
            rw [ih i h]
            simp [← hok.1, ha0]
          case false =>
            rw [hce] at h
            simp only [Bool.false_eq_true, if_false] at h
            cases hr : buildSearchConditions sfs tl j1 with
            | error e =>
              rw [hr] at h
              simp [appendCond] at h
            | ok rr =>
              obtain ⟨cs1, as1, f1⟩ := rr
              rw [hr] at h
              simp only [appendCond, Except.ok.injEq, Prod.mk.injEq] at h
              obtain ⟨h1, h2, h3⟩ := h
              rw [← h2, ih j1 hr]
              simp [← hok.1]

end CrudGen

namespace CrudGen

theorem specBoundArgs_nil : ∀ s, specBoundArgs [] s = [] := by
  intro s
  induction s with
  | nil => rfl
  | cons hd tl ih =>
    obtain ⟨k, v⟩ := hd
    simp [specBoundArgs, searchFieldFor, ih]

theorem gq_none (schema : TableSchemaG) (cfg : Config) (params : QueryParams)
    (h : cfg.queryConfig = none) :
    GenerateQuery schema cfg params =
      .ok ("SELECT * FROM " ++ schema.tableName,
           "SELECT COUNT(*) FROM " ++ schema.tableName, []) := by
  simp [GenerateQuery, h, whereClauseFor]

theorem gq_some_ok (schema : TableSchemaG) (cfg : Config) (qc : QueryConfig)
    (params : QueryParams) (cs : List String) (args : List Value) (fin : Nat)
    (hqc : cfg.queryConfig = some qc)
    (hb : buildSearchConditions qc.searchFields params.search 1 = .ok (cs, args, fin)) :
    GenerateQuery schema cfg params =
      .ok ("SELECT * FROM " ++ schema.tableName ++ whereClauseFor cs ++
             limitClauseFor qc params.page params.pageSize,
           "SELECT COUNT(*) FROM " ++ schema.tableName ++ whereClauseFor cs, args) := by
  cases hs : params.search with
  | nil =>
    rw [hs] at hb
    simp only [buildSearchConditions, Except.ok.injEq, Prod.mk.injEq] at hb
    obtain ⟨h1, h2, h3⟩ := hb
    simp [GenerateQuery, hqc, hs, ← h1, ← h2, whereClauseFor]
  | cons hd tl =>
    rw [hs] at hb
    simp [GenerateQuery, hqc, hs, hb]

theorem gq_some_err (schema : TableSchemaG) (cfg : Config) (qc : QueryConfig)
    (params : QueryParams) (e : String)
    (hqc : cfg.queryConfig = some qc)
    (hb : buildSearchConditions qc.searchFields params.search 1 = .error e) :
    GenerateQuery schema cfg params = .error ("failed to build search conditions: " ++ e) := by
  cases hs : params.search with
  | nil =>
    rw [hs] at hb
    simp [buildSearchConditions] at hb
  | cons hd tl =>
    rw [hs] at hb
    simp [GenerateQuery, hqc, hs, hb]

end CrudGen

namespace CrudGen

/-- C1: each configured search value is emitted only as a bound argument of
the generated query, never interpolated into the SQL text: two runs of query
generation on search maps with the same keys and value shapes but different
values produce identical SELECT and COUNT strings, and each run's
bound-argument list contains exactly the input values literally (for fuzzy,
wrapped in percent signs), even when a value contains SQL metacharacters. -/
theorem C1_values_only_bound_never_in_sql
    (schema : TableSchemaG) (cfg : Config) (page pageSize : Int)
    (sort1 sort2 : List SortFieldC) (s1 s2 : List (String × Value))
    (sql1 cnt1 sql2 cnt2 : String) (a1 a2 : List Value)
    (hkeys : s1.map Prod.fst = s2.map Prod.fst)
    (hshape : sameShapes (s1.map Prod.snd) (s2.map Prod.snd) = true)
    (h1 : GenerateQuery schema cfg
        { page := page, pageSize := pageSize, search := s1, sort := sort1 } =
      .ok (sql1, cnt1, a1))
    (h2 : GenerateQuery schema cfg
        { page := page, pageSize := pageSize, search := s2, sort := sort2 } =
      .ok (sql2, cnt2, a2)) :
    sql1 = sql2 ∧ cnt1 = cnt2 ∧
      a1 = specBoundArgs (cfgSearchFields cfg) s1 ∧
      a2 = specBoundArgs (cfgSearchFields cfg) s2 := by
  cases hqc : cfg.queryConfig with
  | none =>
    rw [gq_none schema cfg _ hqc] at h1
    rw [gq_none schema cfg _ hqc] at h2
    simp only [Except.ok.injEq, Prod.mk.injEq] at h1 h2
    obtain ⟨e1, e2, e3⟩ := h1
    obtain ⟨g1, g2, g3⟩ := h2
    subst e1; subst e2; subst e3; subst g1; subst g2; subst g3
    refine ⟨rfl, rfl, ?_, ?_⟩ <;> simp [cfgSearchFields, hqc, specBoundArgs_nil]
  | some qc =>
    have hsfs : cfgSearchFields cfg = qc.searchFields := by simp [cfgSearchFields, hqc]
    cases hb1 : buildSearchConditions qc.searchFields s1 1 with
    | error e =>
      rw [gq_some_err schema cfg qc _ e hqc hb1] at h1
      simp at h1
    | ok r1 =>
      obtain ⟨cs1, args1, f1⟩ := r1
      cases hb2 : buildSearchConditions qc.searchFields s2 1 with
      | error e =>
        rw [gq_some_err schema cfg qc _ e hqc hb2] at h2
        simp at h2
      | ok r2 =>
        obtain ⟨cs2, args2, f2⟩ := r2
        have hrel := buildSearchConditions_shape qc.searchFields s1 s2 1 hkeys hshape
        rw [hb1, hb2] at hrel
        simp only [condsRel] at hrel
        rw [gq_some_ok schema cfg qc _ cs1 args1 f1 hqc hb1] at h1
        rw [gq_some_ok schema cfg qc _ cs2 args2 f2 hqc hb2] at h2
        simp only [Except.ok.injEq, Prod.mk.injEq] at h1 h2
        obtain ⟨e1, e2, e3⟩ := h1
        obtain ⟨g1, g2, g3⟩ := h2
        subst e1; subst e2; subst e3; subst g1; subst g2; subst g3
        refine ⟨by rw [hrel.1], by rw [hrel.1], ?_, ?_⟩
        · rw [hsfs]
          exact buildSearchConditions_args qc.searchFields s1 1 hb1
        · rw [hsfs]
          exact buildSearchConditions_args qc.searchFields s2 1 hb2

/-- Witness for C1: a benign search value and one full of SQL metacharacters
produce the same SQL text, and each appears literally (percent-wrapped) in
the bound arguments. -/
theorem C1_values_only_bound_never_in_sql_witness :
    ([("name", Value.vstr "john")].map Prod.fst =
        [("name", Value.vstr "x\x27; DROP TABLE users; --")].map Prod.fst) ∧
    sameShapes ([("name", Value.vstr "john")].map Prod.snd)
        ([("name", Value.vstr "x\x27; DROP TABLE users; --")].map Prod.snd) = true ∧
    ("SELECT * FROM users WHERE name ILIKE $1 LIMIT 10 OFFSET 0" =
        "SELECT * FROM users WHERE name ILIKE $1 LIMIT 10 OFFSET 0" ∧
      "SELECT COUNT(*) FROM users WHERE name ILIKE $1" =
        "SELECT COUNT(*) FROM users WHERE name ILIKE $1" ∧
      [Value.vstr "%john%"] =
        specBoundArgs (cfgSearchFields cfgFuzzy) [("name", Value.vstr "john")] ∧
      [Value.vstr "%x\x27; DROP TABLE users; --%"] =
        specBoundArgs (cfgSearchFields cfgFuzzy)
          [("name", Value.vstr "x\x27; DROP TABLE users; --")]) :=
  ⟨rfl, rfl,
    C1_values_only_bound_never_in_sql usersG cfgFuzzy 1 10 [] []
      [("name", Value.vstr "john")] [("name", Value.vstr "x\x27; DROP TABLE users; --")]
      "SELECT * FROM users WHERE name ILIKE $1 LIMIT 10 OFFSET 0"
      "SELECT COUNT(*) FROM users WHERE name ILIKE $1"
      "SELECT * FROM users WHERE name ILIKE $1 LIMIT 10 OFFSET 0"
      "SELECT COUNT(*) FROM users WHERE name ILIKE $1"
      [Value.vstr "%john%"] [Value.vstr "%x\x27; DROP TABLE users; --%"]
      rfl rfl rfl rfl⟩

end CrudGen

namespace CrudGen

theorem buildOrderParts_isOk (sfs : List String) :
    ∀ sorts : List SortFieldC, (buildOrderParts sfs sorts).isOk = sorts.all (validSortEntry sfs) := by
  intro sorts
  induction sorts with
  | nil => rfl
  | cons s rest ih =>
    simp only [buildOrderParts, List.all_cons]
    cases hc : sfs.contains s.field
    case false =>
      have hm : ¬ s.field ∈ sfs := by simpa using hc
      have hv : validSortEntry sfs s = false := by simp [validSortEntry, hm]
      rw [hv]
      simp [Except.isOk, Except.toBool]
    case true =>
      have hm : s.field ∈ sfs := by simpa using hc
      have hv : validSortEntry sfs s =
          !(normOrder s.order != "ASC" && normOrder s.order != "DESC") := by
        simp [validSortEntry, hm]
      rw [hv]
      cases ho : (normOrder s.order != "ASC" && normOrder s.order != "DESC")
      case true => simp [Except.isOk, Except.toBool]
      case false =>
        cases hr : buildOrderParts sfs rest with
        | error e =>
          rw [hr] at ih
          simpa [Except.isOk] using ih
        | ok parts =>
          rw [hr] at ih
          simpa [Except.isOk] using ih

theorem buildOrderParts_ok_val (sfs : List String) :
    ∀ sorts : List SortFieldC, sorts.all (validSortEntry sfs) = true →
      buildOrderParts sfs sorts =
        .ok (sorts.map (fun s => s.field ++ " " ++ normOrder s.order)) := by
  intro sorts
  induction sorts with
  | nil => intro _; rfl
  | cons s rest ih =>
    intro hall
    simp only [List.all_cons, Bool.and_eq_true] at hall
    have hv := hall.1
    rw [validSortEntry, Bool.and_eq_true] at hv
    have hc : sfs.contains s.field = true := hv.1
    have ho : (normOrder s.order != "ASC" && normOrder s.order != "DESC") = false := by
      have h2 := hv.2
      cases hq : (normOrder s.order != "ASC" && normOrder s.order != "DESC")
      · rfl
      · rw [hq] at h2
        simp at h2
    simp only [buildOrderParts, hc, ho, Bool.not_true, Bool.false_eq_true, if_false, ih hall.2,
      List.map_cons]

end CrudGen

namespace CrudGen

/-- C3 counterexample: the HTTP list handler leaves pageSize 5000 untouched
(no 1000 ceiling exists on this path) and the generated SQL reads LIMIT 5000,
not LIMIT 1000 as the claim requires. -/
theorem C3_counterexample :
    defaultListParams 0 5000 = (1, 5000) ∧
    GenerateQuery usersG cfgFuzzy { page := 1, pageSize := 5000, search := [], sort := [] } =
      .ok ("SELECT * FROM users LIMIT 5000 OFFSET 0", "SELECT COUNT(*) FROM users", []) :=
  ⟨rfl, rfl⟩

/-- C3 amended: the list handler clamps page (at most 0 becomes 1) and
defaults pageSize (at most 0 becomes 20) with no upper ceiling, and the
generated SQL's LIMIT equals the resulting pageSize while OFFSET equals
(page - 1) * pageSize. -/
theorem C3_amended_pagination (schema : TableSchemaG) (cfg : Config) (qc : QueryConfig)
    (page pageSize : Int) (hqc : cfg.queryConfig = some qc) (hp : qc.pagination = true) :
    (page ≤ 0 → (defaultListParams page pageSize).1 = 1) ∧
    (0 < page → (defaultListParams page pageSize).1 = page) ∧
    (pageSize ≤ 0 → (defaultListParams page pageSize).2 = 20) ∧
    (0 < pageSize → (defaultListParams page pageSize).2 = pageSize) ∧
    limitClauseFor qc (defaultListParams page pageSize).1 (defaultListParams page pageSize).2 =
      " LIMIT " ++ toString (defaultListParams page pageSize).2 ++ " OFFSET " ++
        toString (((defaultListParams page pageSize).1 - 1) * (defaultListParams page pageSize).2) ∧
    GenerateQuery schema cfg
        { page := (defaultListParams page pageSize).1,
          pageSize := (defaultListParams page pageSize).2, search := [], sort := [] } =
      .ok ("SELECT * FROM " ++ schema.tableName ++
             limitClauseFor qc (defaultListParams page pageSize).1 (defaultListParams page pageSize).2,
           "SELECT COUNT(*) FROM " ++ schema.tableName, []) := by
  refine ⟨?_, ?_, ?_, ?_, ?_, ?_⟩
  · intro h; simp [defaultListParams, h]
  · intro h; simp [defaultListParams, show ¬ page ≤ 0 by omega]
  · intro h; simp [defaultListParams, h]
  · intro h; simp [defaultListParams, show ¬ pageSize ≤ 0 by omega]
  · simp [limitClauseFor, hp]
  · rw [gq_some_ok schema cfg qc _ [] [] 1 hqc (by simp [buildSearchConditions])]
    simp [whereClauseFor, String.append_empty]

/-- Witness for C3 amended at page 0, pageSize 5000. -/
theorem C3_amended_pagination_witness :
    cfgFuzzy.queryConfig = some fuzzyNameQC ∧ fuzzyNameQC.pagination = true ∧
    ((0 : Int) ≤ 0 → (defaultListParams 0 5000).1 = 1) ∧
    ((5000 : Int) ≤ 0 → (defaultListParams 0 5000).2 = 20) ∧
    GenerateQuery usersG cfgFuzzy
        { page := (defaultListParams 0 5000).1, pageSize := (defaultListParams 0 5000).2,
          search := [], sort := [] } =
      .ok ("SELECT * FROM users" ++ limitClauseFor fuzzyNameQC (defaultListParams 0 5000).1
             (defaultListParams 0 5000).2,
           "SELECT COUNT(*) FROM users", []) := by
  have h := C3_amended_pagination usersG cfgFuzzy fuzzyNameQC 0 5000 rfl rfl
  exact ⟨rfl, rfl, h.1, h.2.2.1, h.2.2.2.2.2⟩

/-- C4 counterexample: a sort entry whose field is outside the sortable
whitelist does not make list generation fail; the generated query is returned
with no ORDER BY at all, because the buildOrderClause invocation is commented
out in GenerateQuery. -/
theorem C4_counterexample :
    fuzzyNameQC.sortableFields.contains "bogus" = false ∧
    GenerateQuery usersG cfgFuzzy
        { page := 1, pageSize := 10, search := [],
          sort := [{ field := "bogus", order := "ASC" }] } =
      .ok ("SELECT * FROM users LIMIT 10 OFFSET 0", "SELECT COUNT(*) FROM users", []) :=
  ⟨rfl, rfl⟩

/-- C4 amended: buildOrderClause itself rejects non-whitelisted fields and
orders that do not normalize to ASC or DESC, and comma-joins valid entries in
request order; but GenerateQuery never invokes it (the call is commented out),
so the generated query is independent of the requested sort list, and the
GORM-backed list path silently skips non-whitelisted sort fields instead of
failing. -/
theorem C4_amended_sort_handling :
    (∀ (sfs : List String) (sorts : List SortFieldC),
      (buildOrderClause sfs sorts).isOk = (sorts.isEmpty || sorts.all (validSortEntry sfs))) ∧
    (∀ (sfs : List String) (sorts : List SortFieldC), sorts ≠ [] →
      sorts.all (validSortEntry sfs) = true →
      buildOrderClause sfs sorts =
        .ok (" ORDER BY " ++ joinSep ", "
          (sorts.map (fun s => s.field ++ " " ++ normOrder s.order)))) ∧
    (∀ (schema : TableSchemaG) (cfg : Config) (page pageSize : Int)
      (search : List (String × Value)) (sort1 sort2 : List SortFieldC),
      GenerateQuery schema cfg { page := page, pageSize := pageSize, search := search, sort := sort1 } =
        GenerateQuery schema cfg { page := page, pageSize := pageSize, search := search, sort := sort2 }) ∧
    (∀ (sfs : List String) (s : SortFieldC) (rest : List SortFieldC),
      sfs ≠ [] → sfs.contains s.field = false →
      listSortClauses sfs (s :: rest) = listSortClauses sfs rest) := by
  refine ⟨?_, ?_, ?_, ?_⟩
  · intro sfs sorts
    cases sorts with
    | nil => rfl
    | cons s rest =>
      simp only [buildOrderClause, List.isEmpty_cons, Bool.false_or]
      rw [if_neg (by simp)]
      rw [← buildOrderParts_isOk sfs (s :: rest)]
      cases hr : buildOrderParts sfs (s :: rest) with
      | error e => rfl
      | ok parts => rfl
  · intro sfs sorts hne hall
    cases sorts with
    | nil => exact absurd rfl hne
    | cons s rest =>
      simp only [buildOrderClause]
      rw [if_neg (by simp)]
      rw [buildOrderParts_ok_val sfs (s :: rest) hall]
  · intro schema cfg page pageSize search sort1 sort2
    rfl
  · intro sfs s rest hne hc
    have hl : sfs.length > 0 := by
      cases sfs with
      | nil => exact absurd rfl hne
      | cons a l => simp
    have hm : ¬ s.field ∈ sfs := by simpa using hc
    simp [listSortClauses, hl, hc, List.filterMap_cons, hm]

/-- Witness for C4 amended: a valid two-entry sort list renders comma-joined
in request order, and a non-whitelisted field is skipped silently by the
GORM-backed path. -/
theorem C4_amended_sort_handling_witness :
    (([{ field := "name", order := "DESC" }, { field := "id", order := "" }] :
        List SortFieldC) ≠ []) ∧
    ([{ field := "name", order := "DESC" }, { field := "id", order := "" }] :
        List SortFieldC).all (validSortEntry ["name", "id"]) = true ∧
    buildOrderClause ["name", "id"]
        [{ field := "name", order := "DESC" }, { field := "id", order := "" }] =
      .ok " ORDER BY name DESC, id ASC" ∧
    (["name"] : List String) ≠ [] ∧
    (["name"] : List String).contains "bogus" = false ∧
    listSortClauses ["name"]
        [{ field := "bogus", order := "ASC" }, { field := "name", order := "desc" }] =
      ["name ASC"] := by
  refine ⟨by simp, by decide, ?_, by simp, by decide, ?_⟩
  · have h := C4_amended_sort_handling.2.1 ["name", "id"]
      [{ field := "name", order := "DESC" }, { field := "id", order := "" }] (by simp) (by decide)
    simpa [joinSep, normOrder] using h
  · have h := C4_amended_sort_handling.2.2.2 ["name"]
      { field := "bogus", order := "ASC" } [{ field := "name", order := "desc" }]
      (by simp) (by decide)
    rw [h]
    rfl

end CrudGen

namespace CrudGen

/-- C8 counterexample: in the placeholder-based query generator a multi_select
field with a non-empty array does not produce an IN predicate; generation
fails with an unsupported-search-type error. -/
theorem C8_counterexample :
    GenerateQuery usersG cfgMS
        { page := 1, pageSize := 10, search := [("tags", Value.varr [Value.vstr "a"])],
          sort := [] } =
      .error "failed to build search conditions: failed to build condition for field tags: unsupported search type: multi_select" :=
  rfl

/-- C8 amended: in the placeholder-based generator only type multi expands a
non-empty array into one IN predicate with one placeholder and one bound
argument per element in array order, an empty array contributes no predicate,
and multi_select is rejected as unsupported; in the GORM-backed list path
multi_select produces the IN clause (with an empty array contributing
nothing) while multi produces an equality clause. -/
theorem C8_amended_multi_in (f : String) (xs : List Value) (i : Nat) (v : Value)
    (ja : String → Option (List String)) (jm : String → Option Row)
    (hne : xs ≠ []) (hv : v.isNull = false) :
    buildFieldCondition f (Value.varr xs) SearchType.multi i =
      .ok (f ++ " IN (" ++ joinSep ", " (placeholdersFrom i xs.length) ++ ")",
           xs, i + xs.length) ∧
    (placeholdersFrom i xs.length).length = xs.length ∧
    buildFieldCondition f (Value.varr []) SearchType.multi i = .ok ("", [], i) ∧
    buildSearchConditions [{ field := f, type := .multi }] [(f, Value.varr [])] i =
      .ok ([], [], i) ∧
    buildFieldCondition f v SearchType.multiSelect i =
      .error "unsupported search type: multi_select" ∧
    listSearchClauses ja jm [{ field := f, type := .multiSelect }] [(f, Value.varr xs)] =
      [(f ++ " IN ?", xs)] ∧
    listSearchClauses ja jm [{ field := f, type := .multiSelect }] [(f, Value.varr [])] = [] ∧
    listSearchClauses ja jm [{ field := f, type := .multi }] [(f, v)] = [(f ++ " = ?", [v])] := by
  have h0 : xs.length > 0 := List.length_pos.mpr hne
  refine ⟨?_, by simp [placeholdersFrom], rfl, ?_, rfl, ?_, ?_, ?_⟩
  · simp [buildFieldCondition, h0]
  · simp [buildSearchConditions, searchFieldFor, buildFieldCondition]
  · simp [listSearchClauses, listFieldClauses, lookupA, h0, Value.isNull]
  · simp [listSearchClauses, listFieldClauses, lookupA]
  · simp [listSearchClauses, listFieldClauses, lookupA, hv]

/-- Witness for C8 amended on a concrete two-element array. -/
theorem C8_amended_multi_in_witness :
    (([Value.vstr "a", Value.vstr "b"] : List Value) ≠ []) ∧
    (Value.vstr "x").isNull = false ∧
    buildFieldCondition "tags" (Value.varr [Value.vstr "a", Value.vstr "b"])
        SearchType.multi 2 =
      .ok ("tags IN ($2, $3)", [Value.vstr "a", Value.vstr "b"], 4) ∧
    buildSearchConditions [{ field := "tags", type := .multi }]
        [("tags", Value.varr [])] 1 = .ok ([], [], 1) ∧
    listSearchClauses (fun _ => none) (fun _ => none)
        [{ field := "tags", type := .multiSelect }]
        [("tags", Value.varr [Value.vstr "a", Value.vstr "b"])] =
      [("tags IN ?", [Value.vstr "a", Value.vstr "b"])] := by
  have h := C8_amended_multi_in "tags" [Value.vstr "a", Value.vstr "b"] 2 (Value.vstr "x")
    (fun _ => none) (fun _ => none) (by simp) rfl
  refine ⟨by simp, rfl, ?_, ?_, ?_⟩
  · have h1 := h.1
    simpa [placeholdersFrom, joinSep, List.range_succ] using h1
  · exact (C8_amended_multi_in "tags" [Value.vstr "a"] 1 (Value.vstr "x")
      (fun _ => none) (fun _ => none) (by simp) rfl).2.2.2.1
  · exact h.2.2.2.2.2.1

/-- C9: the range search type emits a lower bound exactly when min is present
and non-nil and an upper bound exactly when max is present and non-nil, each
bound to the corresponding value, ANDed when both are present; the GORM-backed
list path emits the same bounds as independent clauses.  Stated as equality
with the spec-side description of the range predicate. -/
theorem C9_range_bounds (f : String) (m : Row) (i : Nat)
    (ja : String → Option (List String)) (jm : String → Option Row) :
    buildFieldCondition f (Value.vmap m) SearchType.range i =
      .ok (specRangePredicate f i (getNN m "min") (getNN m "max")) ∧
    listFieldClauses ja jm { field := f, type := .range } (Value.vmap m) =
      specRangeClauses f (getNN m "min") (getNN m "max") := by
  constructor
  · rcases e1 : getNN m "min" with _ | a <;> rcases e2 : getNN m "max" with _ | b <;>
      simp [buildFieldCondition, e1, e2, specRangePredicate, joinSep, String.append_assoc]
  · rcases e1 : getNN m "min" with _ | a <;> rcases e2 : getNN m "max" with _ | b <;>
      simp [listFieldClauses, e1, e2, specRangeClauses]

end CrudGen

namespace CrudGen


theorem lookupA_nil (j : String) : lookupA [] j = none := rfl

theorem lookupA_cons (a : String) (b : Value) (d : Row) (j : String) :
    lookupA ((a, b) :: d) j = if a == j then some b else lookupA d j := by
  by_cases h : a == j
  · simp [lookupA, List.find?, h]
  · simp only [lookupA, List.find?]
    rw [show ((a, b).1 == j) = false by simpa using h]
    rfl

theorem lookupA_filter_ne (k j : String) (hne : k ≠ j) :
    ∀ d : Row, lookupA (d.filter (fun kv => kv.1 != k)) j = lookupA d j := by
  intro d
  induction d with
  | nil => rfl
  | cons hd tl ih =>
    obtain ⟨a, b⟩ := hd
    simp only [List.filter_cons]
    by_cases hak : a = k
    · rw [show ((a, b).1 != k) = false by simp [hak]]
      simp only [Bool.false_eq_true, if_false]
      rw [ih, lookupA_cons]
      rw [show (a == j) = false from by rw [hak]; exact beq_eq_false_iff_ne.mpr hne]
      rfl
    · rw [show ((a, b).1 != k) = true by simpa using hak]
      rw [if_pos rfl]
      rw [lookupA_cons, lookupA_cons, ih]

theorem lookupA_setA (d : Row) (k j : String) (v : Value) :
    lookupA (setA d k v) j = if k = j then some v else lookupA d j := by
  by_cases h : k = j
  · subst h
    simp [setA, lookupA_cons]
  · rw [if_neg h]
    unfold setA
    rw [lookupA_cons]
    rw [show (k == j) = false by simpa using h]
    exact lookupA_filter_ne k j h d

theorem lookupA_append_notin (d e : Row) (j : String) (hj : ¬ j ∈ e.map Prod.fst) :
    lookupA (d ++ e) j = lookupA d j := by
  induction d with
  | nil =>
    simp only [List.nil_append, lookupA_nil]
    unfold lookupA
    rw [List.find?_eq_none.mpr]
    · rfl
    · intro x hx
      simp only [beq_iff_eq]
      intro heq
      exact hj (by exact List.mem_map.mpr ⟨x, hx, heq⟩)
  | cons hd tl ih =>
    obtain ⟨a, b⟩ := hd
    rw [List.cons_append, lookupA_cons, lookupA_cons, ih]

theorem setA_agree (bad : List String) (d1 d2 : Row) (k : String) (v : Value)
    (h : agreeOff bad d1 d2) : agreeOff bad (setA d1 k v) (setA d2 k v) := by
  intro j hj
  rw [lookupA_setA, lookupA_setA]
  by_cases hkj : k = j
  · simp [hkj]
  · rw [if_neg hkj, if_neg hkj]
    exact h j hj

theorem applyOneDefault_agree (st : DBState) (bad : List String) (d1 d2 : Row)
    (f : CreatableField) (hf : ¬ f.field ∈ bad) (h : agreeOff bad d1 d2) :
    agreeOff bad (applyOneDefault st d1 f) (applyOneDefault st d2 f) := by
  unfold applyOneDefault
  rw [h f.field hf]
  by_cases hcond : (f.defaultType != "" && f.field != "" && (lookupA d2 f.field).isNone) = true
  · rw [if_pos hcond, if_pos hcond]
    cases defaultValueFor st f with
    | some v => exact setA_agree bad d1 d2 f.field v h
    | none => exact h
  · rw [if_neg hcond, if_neg hcond]
    exact h

theorem applyCreateDefaults_agree (st : DBState) (bad : List String) :
    ∀ (fields : List CreatableField) (d1 d2 : Row),
      (∀ f ∈ fields, ¬ f.field ∈ bad) → agreeOff bad d1 d2 →
      agreeOff bad (applyCreateDefaults fields d1 st) (applyCreateDefaults fields d2 st) := by
  intro fields
  induction fields with
  | nil => intro d1 d2 _ h; exact h
  | cons f fs ih =>
    intro d1 d2 hf h
    have e1 : applyCreateDefaults (f :: fs) d1 st =
        applyCreateDefaults fs (applyOneDefault st d1 f) st := rfl
    have e2 : applyCreateDefaults (f :: fs) d2 st =
        applyCreateDefaults fs (applyOneDefault st d2 f) st := rfl
    rw [e1, e2]
    exact ih _ _ (fun g hg => hf g (List.mem_cons_of_mem f hg))
      (applyOneDefault_agree st bad d1 d2 f (hf f (List.mem_cons_self f fs)) h)

theorem filterToFields_agree (bad : List String) (d1 d2 : Row) (h : agreeOff bad d1 d2) :
    ∀ wl : List String, (∀ k ∈ wl, ¬ k ∈ bad) →
      filterToFields wl d1 = filterToFields wl d2 := by
  intro wl
  induction wl with
  | nil => intro _; rfl
  | cons f fs ih =>
    intro hwl
    simp only [filterToFields, List.filterMap_cons]
    rw [h f (hwl f (List.mem_cons_self f fs))]
    have h2 := ih (fun k hk => hwl k (List.mem_cons_of_mem f hk))
    simp only [filterToFields] at h2
    rw [h2]

theorem filterToFields_keys (d : Row) :
    ∀ (wl : List String) (k : String), k ∈ (filterToFields wl d).map Prod.fst → k ∈ wl := by
  intro wl
  induction wl with
  | nil => intro k hk; simp [filterToFields] at hk
  | cons f fs ih =>
    intro k hk
    simp only [filterToFields, List.filterMap_cons] at hk
    cases hl : lookupA d f with
    | none =>
      rw [hl] at hk
      simp only [Option.map, List.map_cons] at hk
      exact List.mem_cons_of_mem f (ih k hk)
    | some v =>
      rw [hl] at hk
      simp only [Option.map, List.map_cons, List.mem_cons] at hk
      cases hk with
      | inl h => exact h ▸ List.mem_cons_self f fs
      | inr h => exact List.mem_cons_of_mem f (ih k h)

end CrudGen

namespace CrudGen


/-- The claimed whitelist boundary does not sit in CRUDGenerator.GenerateInsert:
a data key outside every CreatableFields whitelist still reaches the generated
INSERT column list, because GenerateInsert filters only against the schema. -/
theorem C2_counterexample :
    ¬ "role" ∈ creatableNameOnly.map (fun f => f.field) ∧
    GenerateInsert usersG [("name", Value.vstr "x"), ("role", Value.vstr "admin")] =
      .ok ("INSERT INTO users (name, role) VALUES ($1, $2) RETURNING id",
           [Value.vstr "x", Value.vstr "admin"]) :=
  ⟨by decide, rfl⟩

/-- C2 (amended): the silent whitelist filter lives in the service layer, not in
the SQL generators.  CRUDService.Create filters the data through the non-empty
CreatableFields whitelist, so every key it passes on is whitelisted and extra
keys never change the outcome; CRUDGenerator.GenerateUpdate keeps only keys of
the non-empty updatable whitelist; CRUDGenerator.GenerateInsert on its own
filters only against the schema column list. -/
theorem C2_amended_whitelisting (rm : String → String → Option Bool)
    (wl : List CreatableField) (uwl : List String) (schema : TableSchemaG)
    (pkName : String) (data extra : Row) (st : DBState)
    (hwl : wl ≠ []) (huwl : uwl ≠ [])
    (hextra : ∀ k ∈ extra.map Prod.fst, ¬ k ∈ wl.map (fun f => f.field)) :
    (∀ k ∈ (createFiltered wl data st).map Prod.fst, k ∈ wl.map (fun f => f.field)) ∧
    createService rm wl (data ++ extra) st = createService rm wl data st ∧
    (∀ k ∈ (updateKept schema uwl pkName data).map Prod.fst, k ∈ uwl) ∧
    (∀ k ∈ (insertKept schema data).map Prod.fst,
        schema.fields.any (fun f => f.name == k) = true) := by
  have hne : wl.isEmpty = false := by
    cases wl with
    | nil => exact absurd rfl hwl
    | cons a l => rfl
  refine ⟨?_, ?_, ?_, ?_⟩
  · intro k hk
    simp only [createFiltered, hne, Bool.false_eq_true, if_false] at hk
    exact filterToFields_keys _ _ k hk
  · have hbadwl : ∀ f ∈ wl, ¬ f.field ∈ extra.map Prod.fst := by
      intro f hf hmem
      exact hextra f.field hmem (List.mem_map.mpr ⟨f, hf, rfl⟩)
    have hag0 : agreeOff (extra.map Prod.fst) (data ++ extra) data :=
      fun k hk => lookupA_append_notin data extra k hk
    have hag := applyCreateDefaults_agree st (extra.map Prod.fst) wl (data ++ extra) data
      hbadwl hag0
    have hwlk : ∀ k ∈ wl.map (fun f => f.field), ¬ k ∈ extra.map Prod.fst := by
      intro k hk hm
      exact hextra k hm hk
    have hfilt : createFiltered wl (data ++ extra) st = createFiltered wl data st := by
      simp only [createFiltered, hne, Bool.false_eq_true, if_false]
      exact filterToFields_agree (extra.map Prod.fst) _ _ hag (wl.map (fun f => f.field)) hwlk
    have herrs : createErrs rm wl (data ++ extra) st = createErrs rm wl data st := by
      unfold createErrs
      rw [hfilt]
    unfold createService
    rw [herrs, hfilt]
  · intro k hk
    simp only [updateKept, List.mem_map] at hk
    obtain ⟨kv, hkv, hfst⟩ := hk
    subst hfst
    have hmem := (List.mem_filter.mp hkv).2
    have hie : uwl.isEmpty = false := by
      cases uwl with
      | nil => exact absurd rfl huwl
      | cons a l => rfl
    simp only [Bool.and_eq_true, Bool.or_eq_true, hie, Bool.false_eq_true, false_or] at hmem
    simpa using hmem.2
  · intro k hk
    simp only [insertKept, List.mem_map] at hk
    obtain ⟨kv, hkv, hfst⟩ := hk
    subst hfst
    exact (List.mem_filter.mp hkv).2

/-- The whitelisting theorem at a concrete instance: the extra `role` key sent
to CRUDService.Create alongside `name` leaves the result and the table state
exactly as if it had never been sent. -/
theorem C2_amended_whitelisting_witness :
    createService (fun _ _ => some true) creatableNameOnly
        ([("name", Value.vstr "x")] ++ [("role", Value.vstr "admin")]) [] =
      createService (fun _ _ => some true) creatableNameOnly [("name", Value.vstr "x")] [] :=
  (C2_amended_whitelisting (fun _ _ => some true) creatableNameOnly ["name"] usersG "id"
    [("name", Value.vstr "x")] [("role", Value.vstr "admin")] []
    (by simp [creatableNameOnly]) (by simp) (by decide)).2.1

end CrudGen

namespace CrudGen

/-- C5: the documented type decompositions hold for the genuinely supported
tokens and unsupported tokens fail loudly, but `serial` — the claimed
auto-increment integer mapping, used by the repository\x27s own test configs —
has no mapping at all and is rejected as unsupported, so a `SERIAL PRIMARY KEY`
column makes schema parsing fail outright. -/
theorem C5_serial_unsupported :
    parseDataType "integer" = .ok (PGType.integer, 0, 0, 0) ∧
    parseDataType "varchar(50)" = .ok (PGType.varchar, 50, 0, 0) ∧
    parseDataType "numeric(10,2)" = .ok (PGType.numeric, 0, 10, 2) ∧
    parseDataType "boolean" = .ok (PGType.boolean, 0, 0, 0) ∧
    parseDataType "timestamp" = .ok (PGType.timestamp, 0, 0, 0) ∧
    parseDataType "bogus_type" = .error "unsupported PostgreSQL type: bogus_type" ∧
    parseDataType "serial" = .error "unsupported PostgreSQL type: serial" ∧
    ParseCreateStatement "CREATE TABLE t (col serial)" =
      .error ("failed to parse fields: failed to parse field \x27col serial\x27: " ++
        "failed to parse data type \x27serial\x27: unsupported PostgreSQL type: serial") ∧
    ParseCreateStatement "CREATE TABLE t (col integer)" =
      .ok { tableName := "t", fields := [{ name := "col", type := PGType.integer }] } := by
  refine ⟨?_, ?_, ?_, ?_, ?_, ?_, ?_, ?_, ?_⟩ <;> decide

end CrudGen

namespace CrudGen

/-- C6: whenever validation of a create or update payload yields at least one
error, the service returns a structured failure carrying the complete error
list (success = false), builds no INSERT or UPDATE — the table state is
returned unchanged — and never throws: the result is an ordinary value. -/
theorem C6_validation_failure_structured_and_pure
    (rm : String → String → Option Bool) (cf : List CreatableField)
    (uf : List UpdatableField) (dataC dataU : Row) (stC stU : DBState) (idv : Value)
    (hC : createErrs rm cf dataC stC ≠ []) (hU : updateErrs rm uf dataU ≠ []) :
    createService rm cf dataC stC =
      ({ id := none, errors := createErrs rm cf dataC stC, success := false }, stC) ∧
    updateService rm uf idv dataU stU =
      ({ rowsAffected := 0, errors := updateErrs rm uf dataU, success := false }, stU) := by
  constructor
  · have h1 : ¬ ((createErrs rm cf dataC stC).isEmpty = true) := by
      simpa [List.isEmpty_iff] using hC
    unfold createService
    rw [if_neg h1]
  · have h2 : ¬ ((updateErrs rm uf dataU).isEmpty = true) := by
      simpa [List.isEmpty_iff] using hU
    unfold updateService
    rw [if_neg h2]

/-- The validation-failure theorem at a concrete instance: an empty payload
against a required field leaves the one-row table untouched on both create and
update, returning the error list instead. -/
theorem C6_validation_failure_structured_and_pure_witness :
    createService (fun _ _ => some true) reqOnlyC [] oneRowSt =
      ({ id := none, errors := createErrs (fun _ _ => some true) reqOnlyC [] oneRowSt,
         success := false }, oneRowSt) ∧
    updateService (fun _ _ => some true) reqOnlyU (Value.vint 1) [] oneRowSt =
      ({ rowsAffected := 0, errors := updateErrs (fun _ _ => some true) reqOnlyU [],
         success := false }, oneRowSt) :=
  C6_validation_failure_structured_and_pure (fun _ _ => some true) reqOnlyC reqOnlyU
    [] [] oneRowSt oneRowSt (Value.vint 1)
    (fun h => absurd (congrArg List.length h) (by decide))
    (fun h => absurd (congrArg List.length h) (by decide))

end CrudGen

namespace CrudGen

/-- C7: the validation loop never throws and collects one error per violated
rule across the whole payload — a payload missing a required field, carrying a
too-long string and a pattern mismatch on three different fields yields exactly
three errors in configuration order, with no short-circuit — and a payload
satisfying every rule yields the empty list. -/
theorem C7_validation_collects_all_violations
    (rm : String → String → Option Bool)
    (h1 : rm "^[0-9]+$" "abc" = some false) (h2 : rm "^[0-9]+$" "123" = some true) :
    validateCreatable rm c7Fields c7Bad =
      [{ field := "a", tag := "required", value := Value.vnull,
         message := "A is required" },
       { field := "b", tag := "validation", value := Value.vstr "exceedingly",
         message := "field \x27b\x27 must be at most 5 characters" },
       { field := "c", tag := "validation", value := Value.vstr "abc",
         message := "field \x27c\x27 does not match required pattern" }] ∧
    (validateCreatable rm c7Fields c7Bad).length = 3 ∧
    validateCreatable rm c7Fields c7Good = [] := by
  have e1 : validateCreatable rm c7Fields c7Bad =
      [{ field := "a", tag := "required", value := Value.vnull,
         message := "A is required" },
       { field := "b", tag := "validation", value := Value.vstr "exceedingly",
         message := "field \x27b\x27 must be at most 5 characters" },
       { field := "c", tag := "validation", value := Value.vstr "abc",
         message := "field \x27c\x27 does not match required pattern" }] := by
    simp +decide [validateCreatable, creatableFieldErrs, c7Fields, c7Bad,
      requiredViolated, validateFieldValue, lengthErr, numericErr, patternErr,
      lookupA, List.find?, h1]
  refine ⟨e1, by rw [e1]; rfl, ?_⟩
  simp +decide [validateCreatable, creatableFieldErrs, c7Fields, c7Good,
    requiredViolated, validateFieldValue, lengthErr, numericErr, patternErr,
    lookupA, List.find?, h2]

/-- The validation-completeness theorem at a concrete regex matcher. -/
theorem C7_validation_collects_all_violations_witness :
    (validateCreatable (fun _ s => some (s == "123")) c7Fields c7Bad).length = 3 ∧
    validateCreatable (fun _ s => some (s == "123")) c7Fields c7Good = [] :=
  ⟨(C7_validation_collects_all_violations (fun _ s => some (s == "123"))
      (by decide) (by decide)).2.1,
   (C7_validation_collects_all_violations (fun _ s => some (s == "123"))
      (by decide) (by decide)).2.2⟩

end CrudGen

namespace CrudGen

/-- C10: parseFields discards any chunk whose trimmed text isConstraint
classifies as a constraint, and isConstraint tests only a case-insensitive
prefix against PRIMARY KEY / FOREIGN KEY / UNIQUE / CHECK / CONSTRAINT — so an
ordinary column named with such a prefix (unique_code, check_flag) is silently
dropped from the parsed schema with no error. -/
theorem C10_constraint_prefix_swallows_columns (chunk : String) (rest : List String)
    (h : isConstraint (trimStr chunk) = true) :
    parseChunks (chunk :: rest) = parseChunks rest ∧
    isConstraint "unique_code varchar(10)" = true ∧
    isConstraint "check_flag boolean" = true ∧
    ParseCreateStatement
        "CREATE TABLE t (id integer, unique_code varchar(10), check_flag boolean)" =
      .ok { tableName := "t", fields := [{ name := "id", type := PGType.integer }] } := by
  refine ⟨?_, by decide, by decide, by decide⟩
  simp [parseChunks, h]

/-- The constraint-swallowing theorem applied at the concrete chunk
`unique_code varchar(10)`: the column is skipped without error. -/
theorem C10_constraint_prefix_swallows_columns_witness :
    parseChunks ["unique_code varchar(10)", "id integer"] = parseChunks ["id integer"] :=
  (C10_constraint_prefix_swallows_columns "unique_code varchar(10)" ["id integer"]
    (by decide)).1

end CrudGen

